/-
Verification development for the sandboxjs isolated execution core.

The JavaScript sources embedded here (shallowly, as pure Lean functions and
explicit state-passing) are:
  src/core/sandbox.js     (SandboxEngine: message filter, execute, reset, timeout)
  src/ui/sandbox.js       (TemplateEngine: initialize, validateTemplate, buildSrcDoc)
  src/libraries/manager.js (LibraryManager: allow-list, addLibrary, generateCSP)
  src/core/constants.js   (markers, default timeout)
  src/core/events.js      (EventEmitter: synchronous dispatch, modelled as an
                           event log plus the manager's own listener reactions)
  sanitizeCode / fetchWithTimeout from the shared core utilities.

Modelling conventions:
  * JavaScript strings are Lean `String`s; `String.replace` with a global
    regex-escaped literal pattern and a string replacement is modelled by
    `replaceAllStr`: leftmost, non-overlapping occurrences, the inserted text
    never re-scanned, and the replacement string interpreted through the
    GetSubstitution rules (dollar-dollar, dollar-ampersand, dollar-backquote,
    dollar-quote; every other dollar sequence is literal, because an
    escaped-literal pattern has no capture groups).
  * Host-platform primitives (DOM, `new Function` parsing, `new URL`, fetch,
    randomness, timers, localStorage JSON parsing) are parameters or explicit
    state: the parser is a `String -> Option JSError` argument, URL parsing a
    `String -> Option URLParts` argument, fetch outcomes an explicit
    `FetchOutcome`, randomness a stream in the engine state, timers a Bool,
    storage an explicit record.
  * Callbacks (`onMessage`, `onStatusChange`, event emission) are modelled as
    an ordered list of `Emit` values / an event log returned alongside the
    next state.
  * Logging (`Logger`) has no observable effect on the modelled state and is
    omitted.
-/
import Mathlib

/-! ### String scanning utilities

`splitFirst pat s` returns `some (a, b)` when `s = a ++ pat ++ b` with `a`
the shortest such prefix (the leftmost occurrence of `pat`), and `none` when
`pat` does not occur in `s`.  It is the core of the model of JavaScript's
`String.prototype.replace` with a `g`-flagged, regex-escaped literal pattern
(cf. `TemplateEngine.escapeRegExp` + `buildSrcDoc` in src/ui/sandbox.js). -/

def splitFirst (pat : List Char) : List Char → Option (List Char × List Char)
  | [] => if pat = [] then some ([], []) else none
  | c :: rest =>
    if pat.isPrefixOf (c :: rest) then some ([], (c :: rest).drop pat.length)
    else
      match splitFirst pat rest with
      | none => none
      | some (a, b) => some (c :: a, b)

theorem splitFirst_eq_some (pat : List Char) :
    ∀ (s a b : List Char), splitFirst pat s = some (a, b) → s = a ++ pat ++ b := by
  intro s
  induction s with
  | nil =>
    intro a b h
    by_cases hp : pat = [] <;> simp [splitFirst, hp] at h
    obtain ⟨ha, hb⟩ := h
    subst hp; subst ha; subst hb
    rfl
  | cons c rest ih =>
    intro a b h
    by_cases hp : pat.isPrefixOf (c :: rest)
    · simp [splitFirst, hp] at h
      obtain ⟨ha, hb⟩ := h
      obtain ⟨t, ht⟩ := List.isPrefixOf_iff_prefix.mp hp
      subst ha; subst hb
      rw [List.nil_append, ← ht, List.drop_left]
    · cases hsp : splitFirst pat rest with
      | none => simp [splitFirst, hp, hsp] at h
      | some p =>
        obtain ⟨pa, pb⟩ := p
        simp [splitFirst, hp, hsp] at h
        obtain ⟨ha, hb⟩ := h
        subst ha; subst hb
        simp [ih pa pb hsp]

theorem splitFirst_eq_none (pat : List Char) :
    ∀ (s : List Char), splitFirst pat s = none → ¬ pat <:+: s := by
  intro s
  induction s with
  | nil =>
    intro h hinf
    have : pat = [] := List.eq_nil_of_infix_nil hinf
    simp [splitFirst, this] at h
  | cons c rest ih =>
    intro h hinf
    by_cases hp : pat.isPrefixOf (c :: rest)
    · simp [splitFirst, hp] at h
    · cases hsp : splitFirst pat rest with
      | some p => simp [splitFirst, hp, hsp] at h
      | none =>
        obtain ⟨a, b, hab⟩ := hinf
        cases a with
        | nil =>
          exact hp (List.isPrefixOf_iff_prefix.mpr ⟨b, by simpa using hab⟩)
        | cons x xs =>
          exact ih hsp ⟨xs, b, by simpa using congrArg List.tail hab⟩

theorem splitFirst_length (pat : List Char) (hp : pat ≠ [])
    {s a b : List Char} (h : splitFirst pat s = some (a, b)) :
    b.length < s.length := by
  have := splitFirst_eq_some pat s a b h
  subst this
  have : 0 < pat.length := List.length_pos.mpr hp
  simp only [List.length_append]
  omega

theorem splitFirst_leftmost (pat : List Char) (hp : pat ≠ []) :
    ∀ (s a b : List Char), splitFirst pat s = some (a, b) → ¬ pat <:+: a := by
  intro s
  induction s with
  | nil =>
    intro a b h
    simp [splitFirst, hp] at h
  | cons c rest ih =>
    intro a b h
    by_cases hpre : pat.isPrefixOf (c :: rest)
    · simp [splitFirst, hpre] at h
      rw [h.1]
      intro hinf
      exact hp (List.eq_nil_of_infix_nil hinf)
    · cases hsp : splitFirst pat rest with
      | none => simp [splitFirst, hpre, hsp] at h
      | some p =>
        obtain ⟨pa, pb⟩ := p
        simp [splitFirst, hpre, hsp] at h
        obtain ⟨ha, hb⟩ := h
        subst ha
        intro hinf
        obtain ⟨x, y, hxy⟩ := hinf
        cases x with
        | nil =>
          apply hpre
          apply List.isPrefixOf_iff_prefix.mpr
          have hpfx : pat <+: c :: pa := ⟨y, by simpa using hxy⟩
          have hpfx2 : (c :: pa) <+: (c :: rest) :=
            ⟨pat ++ pb, by rw [splitFirst_eq_some pat rest pa pb hsp]; simp⟩
          exact hpfx.trans hpfx2
        | cons z zs =>
          exact ih pa pb hsp ⟨zs, y, by simpa using congrArg List.tail hxy⟩

/-- ECMA-262 GetSubstitution for a string replacement value: scan the
replacement, interpreting the dollar escapes — dollar-dollar inserts a
dollar, dollar-ampersand the matched text, dollar-backquote the portion of
the original subject before the match, dollar-quote the portion after it.
Every other dollar sequence is literal: the patterns produced by
`escapeRegExp` contain no capture groups, so `$n`/`$<name>` never refer to a
capture and pass through unchanged (as in JS). -/
def getSubstitution (matched before after : List Char) : List Char → List Char
  | [] => []
  | [c] => [c]
  | c :: d :: rest2 =>
    if c = '$' then
      if d = '$' then '$' :: getSubstitution matched before after rest2
      else if d = '&' then matched ++ getSubstitution matched before after rest2
      else if d = Char.ofNat 96 then before ++ getSubstitution matched before after rest2
      else if d = Char.ofNat 39 then after ++ getSubstitution matched before after rest2
      else '$' :: getSubstitution matched before after (d :: rest2)
    else c :: getSubstitution matched before after (d :: rest2)

theorem getSubstitution_no_dollar {repl : List Char} (h : '$' ∉ repl)
    (matched before after : List Char) :
    getSubstitution matched before after repl = repl := by
  induction repl with
  | nil => rfl
  | cons c rest ih =>
    have hc : c ≠ '$' := fun he => h (he ▸ List.mem_cons_self c rest)
    have hrest : '$' ∉ rest := fun hm => h (List.mem_cons_of_mem c hm)
    cases rest with
    | nil => rfl
    | cons d rest2 =>
      simp only [getSubstitution, if_neg hc]
      rw [ih hrest]

/-- The behaviour of a `g`-flagged empty pattern (an empty match at every
position; never the case for the template markers, which are all non-empty;
included only to keep `replaceAllList` total and faithful).  `done` is the
already-scanned portion of the original subject. -/
def interleaveGS (repl : List Char) : List Char → List Char → List Char
  | done, [] => getSubstitution [] done [] repl
  | done, c :: rest =>
    getSubstitution [] done (c :: rest) repl ++ c :: interleaveGS repl (done ++ [c]) rest

/-- Replacement loop with explicit fuel (each iteration consumes at least
`pat.length ≥ 1` characters of the subject, so `s.length` fuel is always
enough; see `replaceAllFuel_eq_of_le`).  `done` accumulates the portion of
the original subject before the current remainder, as GetSubstitution's
dollar-backquote and dollar-quote refer to the whole original subject. -/
def replaceAllFuel (pat repl : List Char) : Nat → List Char → List Char → List Char
  | 0, _, s => s
  | fuel + 1, done, s =>
    match splitFirst pat s with
    | none => s
    | some (a, b) =>
      a ++ getSubstitution pat (done ++ a) b repl
        ++ replaceAllFuel pat repl fuel (done ++ (a ++ pat)) b

/-- JavaScript `subject.replace(new RegExp(escapeRegExp pat, "g"), repl)` for
string values: replace every leftmost, non-overlapping occurrence of the
literal `pat` by the GetSubstitution expansion of `repl`, never re-scanning
the inserted text. -/
def replaceAllList (pat repl : List Char) (s : List Char) : List Char :=
  if pat = [] then interleaveGS repl [] s
  else replaceAllFuel pat repl s.length [] s

theorem replaceAllFuel_none {pat repl : List Char} (fuel : Nat) (done : List Char)
    {s : List Char} (h : splitFirst pat s = none) :
    replaceAllFuel pat repl fuel done s = s := by
  cases fuel <;> simp [replaceAllFuel, h]

theorem replaceAllFuel_eq_of_le (pat repl : List Char) (hp : pat ≠ []) :
    ∀ (fuel1 fuel2 : Nat) (done s : List Char), s.length ≤ fuel1 → s.length ≤ fuel2 →
      replaceAllFuel pat repl fuel1 done s = replaceAllFuel pat repl fuel2 done s := by
  intro fuel1
  induction fuel1 with
  | zero =>
    intro fuel2 done s h1 _
    have : s = [] := List.eq_nil_of_length_eq_zero (Nat.le_zero.mp h1)
    subst this
    have hnone : splitFirst pat [] = none := by simp [splitFirst, hp]
    rw [replaceAllFuel_none 0 done hnone, replaceAllFuel_none fuel2 done hnone]
  | succ n ih =>
    intro fuel2 done s h1 h2
    cases hsp : splitFirst pat s with
    | none => rw [replaceAllFuel_none _ _ hsp, replaceAllFuel_none _ _ hsp]
    | some p =>
      obtain ⟨a, b⟩ := p
      have hblen : b.length < s.length := splitFirst_length pat hp hsp
      cases fuel2 with
      | zero =>
        have : s = [] := List.eq_nil_of_length_eq_zero (Nat.le_zero.mp h2)
        subst this
        simp [splitFirst, hp] at hsp
      | succ m =>
        simp only [replaceAllFuel, hsp]
        rw [ih m (done ++ (a ++ pat)) b (by omega) (by omega)]

theorem replaceAllFuel_step (pat repl : List Char) (hp : pat ≠ [])
    {s a b done : List Char} {fuel : Nat}
    (h : splitFirst pat s = some (a, b)) (hf : s.length ≤ fuel) :
    replaceAllFuel pat repl fuel done s =
      a ++ getSubstitution pat (done ++ a) b repl
        ++ replaceAllFuel pat repl b.length (done ++ (a ++ pat)) b := by
  have hblen : b.length < s.length := splitFirst_length pat hp h
  cases fuel with
  | zero => omega
  | succ m =>
    simp only [replaceAllFuel, h]
    rw [replaceAllFuel_eq_of_le pat repl hp m b.length (done ++ (a ++ pat)) b
      (by omega) (by omega)]

theorem replaceAllList_of_none {pat repl s : List Char}
    (h : splitFirst pat s = none) : replaceAllList pat repl s = s := by
  have hp : pat ≠ [] := by
    intro he
    subst he
    cases s <;> simp [splitFirst] at h
  rw [replaceAllList, if_neg hp, replaceAllFuel_none _ _ h]

theorem replaceAllList_of_some {pat repl s a b : List Char} (hp : pat ≠ [])
    (h : splitFirst pat s = some (a, b)) :
    replaceAllList pat repl s =
      a ++ getSubstitution pat a b repl ++ replaceAllFuel pat repl b.length (a ++ pat) b := by
  rw [replaceAllList, if_neg hp]
  have hs := @replaceAllFuel_step pat repl hp s a b [] s.length h (Nat.le_refl _)
  simpa using hs

theorem replaceAllList_not_infix {pat repl s : List Char}
    (h : ¬ pat <:+: s) : replaceAllList pat repl s = s := by
  cases hs : splitFirst pat s with
  | none => exact replaceAllList_of_none hs
  | some p =>
    exact absurd ⟨p.1, p.2, (splitFirst_eq_some pat s p.1 p.2 hs).symm⟩ h

/-- `f0 ++ sep ++ f1 ++ sep ++ ... ++ fn`: the interleaving of fragments with
a separator (the shape of a subject around the occurrences of a pattern, and
of the corresponding replacement result). -/
def intercalateL (sep : List Char) : List (List Char) → List Char
  | [] => []
  | [f] => f
  | f :: g :: rest => f ++ sep ++ intercalateL sep (g :: rest)

/-- The full specification of the `g`-flagged literal replacement for a
dollar-free replacement value: the subject factors uniquely into pattern-free
fragments separated by the occurrences of the pattern, and the result is
exactly the same fragments separated by the replacement text — every
occurrence is substituted, and the substituted text is never re-scanned.
(When the replacement contains dollar sequences, each insertion is its
GetSubstitution expansion instead; see `replaceAllFuel_step`.) -/
theorem replaceAll_factorization (pat repl : List Char) (hp : pat ≠ [])
    (hdollar : '$' ∉ repl) :
    ∀ (s : List Char), ∃ frags : List (List Char), frags ≠ [] ∧
      (∀ f ∈ frags, ¬ pat <:+: f) ∧
      s = intercalateL pat frags ∧
      replaceAllList pat repl s = intercalateL repl frags := by
  suffices H : ∀ (n : Nat) (s done : List Char), s.length = n →
      ∃ frags : List (List Char), frags ≠ [] ∧
        (∀ f ∈ frags, ¬ pat <:+: f) ∧
        s = intercalateL pat frags ∧
        replaceAllFuel pat repl n done s = intercalateL repl frags by
    intro s
    obtain ⟨frags, h1, h2, h3, h4⟩ := H s.length s [] rfl
    exact ⟨frags, h1, h2, h3, by rw [replaceAllList, if_neg hp]; exact h4⟩
  intro n
  induction n using Nat.strong_induction_on with
  | _ n ih =>
  intro s done hn
  cases hsp : splitFirst pat s with
  | none =>
    refine ⟨[s], by simp, ?_, by simp [intercalateL], ?_⟩
    · intro f hf
      rw [List.mem_singleton.mp hf]
      exact splitFirst_eq_none pat s hsp
    · rw [replaceAllFuel_none _ _ hsp]
      simp [intercalateL]
  | some p =>
    obtain ⟨a, b⟩ := p
    have hs := splitFirst_eq_some pat s a b hsp
    have hlen : b.length < n := hn ▸ splitFirst_length pat hp hsp
    obtain ⟨frags, hne, hnoinf, hb1, hb2⟩ := ih b.length hlen b (done ++ (a ++ pat)) rfl
    refine ⟨a :: frags, by simp, ?_, ?_, ?_⟩
    · intro f hf
      rcases List.mem_cons.mp hf with rfl | hf
      · exact splitFirst_leftmost pat hp s f b hsp
      · exact hnoinf f hf
    · cases frags with
      | nil => exact absurd rfl hne
      | cons g rest =>
        rw [hs, hb1]
        rfl
    · cases frags with
      | nil => exact absurd rfl hne
      | cons g rest =>
        have hstep := @replaceAllFuel_step pat repl hp s a b done n hsp hn.le
        rw [hstep, getSubstitution_no_dollar hdollar, hb2]
        rfl

/-- String-level wrapper for `replaceAllList`. -/
def replaceAllStr (s pat repl : String) : String :=
  ⟨replaceAllList pat.data repl.data s.data⟩

/-- Bool-valued infix test, the model of JavaScript `String.prototype.includes`
(used by `validateTemplate` in src/ui/sandbox.js). -/
def infixB (pat : List Char) : List Char → Bool
  | [] => pat.isEmpty
  | c :: rest => pat.isPrefixOf (c :: rest) || infixB pat rest

theorem infixB_iff (pat : List Char) : ∀ s, infixB pat s = true ↔ pat <:+: s := by
  intro s
  induction s with
  | nil =>
    simp only [infixB, List.isEmpty_iff]
    constructor
    · intro h; simp [h]
    · intro h; exact List.eq_nil_of_infix_nil h
  | cons c rest ih =>
    simp only [infixB, Bool.or_eq_true, ih]
    constructor
    · rintro (h | h)
      · exact (List.isPrefixOf_iff_prefix.mp h).isInfix
      · obtain ⟨a, b, hab⟩ := h
        exact ⟨c :: a, b, by simp [hab]⟩
    · rintro ⟨a, b, hab⟩
      cases a with
      | nil =>
        exact Or.inl (List.isPrefixOf_iff_prefix.mpr ⟨b, by simpa using hab⟩)
      | cons x xs =>
        exact Or.inr ⟨xs, b, by simpa using congrArg List.tail hab⟩

/-- JavaScript `s.includes(pat)`. -/
def strIncludes (s pat : String) : Bool := infixB pat.data s.data

/-- JavaScript `Array.prototype.join(sep)`. -/
def joinSep (sep : String) : List String → String
  | [] => ""
  | [x] => x
  | x :: y :: rest => x ++ sep ++ joinSep sep (y :: rest)

/-- JavaScript `[...new Set(l)]`: deduplicate keeping the first occurrence of
each element, in order (used by `loadFromStorage` in src/libraries/manager.js).
`seen` accumulates the elements already produced. -/
def setDedupAux (seen : List String) : List String → List String
  | [] => []
  | x :: xs =>
    if seen.contains x then setDedupAux seen xs
    else x :: setDedupAux (x :: seen) xs

/-- `[...new Set(l)]`. -/
def setDedup (l : List String) : List String := setDedupAux [] l

theorem setDedupAux_subset :
    ∀ (l seen : List String) (d : String), d ∈ setDedupAux seen l → d ∈ l := by
  intro l
  induction l with
  | nil => intro seen d h; simp [setDedupAux] at h
  | cons x xs ih =>
    intro seen d h
    rw [setDedupAux] at h
    by_cases hx : seen.contains x
    · rw [if_pos hx] at h
      exact List.mem_cons_of_mem x (ih seen d h)
    · rw [if_neg hx] at h
      rcases List.mem_cons.mp h with h | h
      · simp [h]
      · exact List.mem_cons_of_mem x (ih (x :: seen) d h)

theorem mem_setDedupAux :
    ∀ (l seen : List String) (d : String), d ∈ l → seen.contains d = false →
      d ∈ setDedupAux seen l := by
  intro l
  induction l with
  | nil => intro seen d h _; simp at h
  | cons x xs ih =>
    intro seen d h hseen
    rw [setDedupAux]
    by_cases hdx : d = x
    · subst hdx
      rw [if_neg (fun hc => by rw [hseen] at hc; cases hc)]
      exact List.mem_cons_self d _
    · rcases List.mem_cons.mp h with h | h
      · exact absurd h hdx
      · by_cases hx : seen.contains x
        · rw [if_pos hx]
          exact ih seen d h hseen
        · rw [if_neg hx]
          refine List.mem_cons_of_mem x (ih (x :: seen) d h ?_)
          simp only [List.contains_cons, Bool.or_eq_false_iff]
          refine ⟨Bool.eq_false_iff.mpr (fun hq => ?_), hseen⟩
          have hxd : d = x := by simpa using hq
          exact hdx hxd

theorem setDedupAux_not_seen :
    ∀ (l seen : List String) (d : String), d ∈ setDedupAux seen l →
      seen.contains d = false := by
  intro l
  induction l with
  | nil => intro seen d h; simp [setDedupAux] at h
  | cons x xs ih =>
    intro seen d h
    rw [setDedupAux] at h
    by_cases hx : seen.contains x
    · rw [if_pos hx] at h
      exact ih seen d h
    · rw [if_neg hx] at h
      rcases List.mem_cons.mp h with h | h
      · subst h
        simpa using hx
      · have := ih (x :: seen) d h
        simp only [List.contains_cons, Bool.or_eq_false_iff] at this
        exact this.2

theorem setDedupAux_nodup : ∀ (l seen : List String), (setDedupAux seen l).Nodup := by
  intro l
  induction l with
  | nil => intro seen; simp [setDedupAux]
  | cons x xs ih =>
    intro seen
    rw [setDedupAux]
    by_cases hx : seen.contains x
    · rw [if_pos hx]; exact ih seen
    · rw [if_neg hx]
      refine List.nodup_cons.mpr ⟨fun hmem => ?_, ih (x :: seen)⟩
      have := setDedupAux_not_seen xs (x :: seen) x hmem
      simp at this

theorem mem_setDedup (l : List String) (d : String) (h : d ∈ l) : d ∈ setDedup l :=
  mem_setDedupAux l [] d h rfl

theorem setDedup_nodup (l : List String) : (setDedup l).Nodup := setDedupAux_nodup l []

/-! ### Constants (src/core/constants.js) -/

/-- `DEFAULT_TIMEOUT_MS = 4000`. -/
def DEFAULT_TIMEOUT_MS : Nat := 4000

/-- `DEFAULT_TEMPLATE_PATH = './src/ui/sandbox.html'`. -/
def DEFAULT_TEMPLATE_PATH : String := "./src/ui/sandbox.html"

namespace TEMPLATE_MARKERS

/-- `TEMPLATE_MARKERS.SECRET = '{{SECRET}}'`. -/
def SECRET : String := "\x7b\x7bSECRET\x7d\x7d"

/-- `TEMPLATE_MARKERS.USER_CODE = '{{USER_CODE}}'`. -/
def USER_CODE : String := "\x7b\x7bUSER_CODE\x7d\x7d"

/-- `TEMPLATE_MARKERS.DYNAMIC_CSP = '{{DYNAMIC_CSP}}'`. -/
def DYNAMIC_CSP : String := "\x7b\x7bDYNAMIC_CSP\x7d\x7d"

/-- `TEMPLATE_MARKERS.LIBRARY_SCRIPTS = '{{LIBRARY_SCRIPTS}}'`. -/
def LIBRARY_SCRIPTS : String := "\x7b\x7bLIBRARY_SCRIPTS\x7d\x7d"

end TEMPLATE_MARKERS

/-! ### TemplateEngine (src/ui/sandbox.js) and the shared `sanitizeCode`
utility (core utilities, imported as `../core/utils.js`). -/

/-- Scanner for `sanitizeCode`: JavaScript
`code.replace(/<\/(script)/gi, "<\\/$1")` — every occurrence of `</` followed
by `script` in any letter case is rewritten to `<\/` followed by the captured
six characters in their original case; scanning resumes after the match and
never re-scans the replacement.  Each step consumes at least one character,
so `s.length` fuel is always enough. -/
def sanitizeFuel : Nat → List Char → List Char
  | 0, s => s
  | _ + 1, [] => []
  | fuel + 1, '<' :: '/' :: rest =>
    if (rest.take 6).map Char.toLower = "script".data then
      '<' :: '\\' :: '/' :: (rest.take 6 ++ sanitizeFuel fuel (rest.drop 6))
    else '<' :: sanitizeFuel fuel ('/' :: rest)
  | fuel + 1, c :: rest => c :: sanitizeFuel fuel rest

/-- `sanitizeCode(code)` from the shared core utilities: escape closing script
tags so user code cannot break out of the enclosing script block. -/
def sanitizeCode (code : String) : String :=
  ⟨sanitizeFuel code.data.length code.data⟩

/-- State of a `TemplateEngine` instance: `templatePath`, `template` (null
until loaded) and `isLoaded`. -/
structure TEState where
  templatePath : String
  template : Option String
  isLoaded : Bool

/-- The `TemplateEngine` constructor (default `templatePath`). -/
def mkTemplateEngine (templatePath : Option String) : TEState :=
  ⟨templatePath.getD DEFAULT_TEMPLATE_PATH, none, false⟩

/-- `forceReload()`: drop the template and the loaded flag. -/
def forceReload (te : TEState) : TEState :=
  { te with template := none, isLoaded := false }

/-- The `requiredMarkers` array of `validateTemplate`, in source order. -/
def requiredMarkers : List String :=
  [TEMPLATE_MARKERS.SECRET, TEMPLATE_MARKERS.USER_CODE,
   TEMPLATE_MARKERS.DYNAMIC_CSP, TEMPLATE_MARKERS.LIBRARY_SCRIPTS]

/-- `validateTemplate()` applied to the template text: collect the required
markers the text does not include; throw (here: return `Except.error`) naming
all of them when any is missing. -/
def validateTemplate (template : String) : Except String Unit :=
  let missingMarkers := requiredMarkers.filter (fun m => !(strIncludes template m))
  if missingMarkers.isEmpty then Except.ok ()
  else Except.error ("Template missing required markers: " ++ joinSep ", " missingMarkers)

/-- Literal fragment 0 of the fallback template (src/ui/sandbox.js, `getFallbackTemplate`). -/
def fbPart0 : String :=
  "<!doctype html>\n"
  ++ "<html><head><meta charset=\"utf-8\">\n"
  ++ "<meta http-equiv=\"Content-Security-Policy\" content=\""

/-- Literal fragment 1 of the fallback template (src/ui/sandbox.js, `getFallbackTemplate`). -/
def fbPart1 : String :=
  "\">\n"
  ++ "<title>Sandbox</title>\n"

/-- Literal fragment 2 of the fallback template (src/ui/sandbox.js, `getFallbackTemplate`). -/
def fbPart2 : String :=
  "\n"
  ++ "<style>html,body\x7bmargin:0;padding:12px;font:14px/1.4 -apple-system, system-ui, Segoe UI, Roboto\x7d body\x7bbackground:#fff;color:#111\x7d</style>\n"
  ++ "</head><body>\n"
  ++ "<script>\n"
  ++ "(function()\x7b\n"
  ++ "  var SECRET = \""

/-- Literal fragment 3 of the fallback template (src/ui/sandbox.js, `getFallbackTemplate`). -/
def fbPart3 : String :=
  "\";\n"
  ++ "\n"
  ++ "  // Debug logging to sandbox console\n"
  ++ "  var debug = function(msg) \x7b\n"
  ++ "    console.log(\x27[SANDBOX DEBUG]\x27, msg);\n"
  ++ "  \x7d;\n"
  ++ "\n"
  ++ "  // Convert any value to a string for sending\n"
  ++ "  var stringify = function(val) \x7b\n"
  ++ "    if (val === undefined) return \x27undefined\x27;\n"
  ++ "    if (val === null) return \x27null\x27;\n"
  ++ "    if (typeof val === \x27string\x27) return val;\n"
  ++ "    if (typeof val === \x27number\x27 || typeof val === \x27boolean\x27) return String(val);\n"
  ++ "\n"
  ++ "    // Handle Error objects specially\n"
  ++ "    if (val instanceof Error) \x7b\n"
  ++ "      var errorStr = val.name + \x27: \x27 + val.message;\n"
  ++ "      if (val.stack) \x7b\n"
  ++ "        // Clean up the stack trace\n"
  ++ "        var lines = val.stack.split(\x27\\n\x27);\n"
  ++ "        var cleaned = [];\n"
  ++ "        for (var i = 0; i < lines.length; i++) \x7b\n"
  ++ "          var line = lines[i];\n"
  ++ "          if (i === 0) \x7b\n"
  ++ "            cleaned.push(line); // Keep error message\n"
  ++ "          \x7d else if (line.indexOf(\x27<anonymous>\x27) !== -1) \x7b\n"
  ++ "            // Extract line and column numbers\n"
  ++ "            var match = line.match(/:(d+):(d+)/);\n"
  ++ "            if (match) \x7b\n"
  ++ "              cleaned.push(\x27    at line \x27 + match[1] + \x27, column \x27 + match[2]);\n"
  ++ "            \x7d\n"
  ++ "          \x7d\n"
  ++ "        \x7d\n"
  ++ "        errorStr = cleaned.join(\x27\\n\x27);\n"
  ++ "      \x7d\n"
  ++ "      return errorStr;\n"
  ++ "    \x7d\n"
  ++ "\n"
  ++ "    // Try to stringify objects\n"
  ++ "    try \x7b\n"
  ++ "      return JSON.stringify(val);\n"
  ++ "    \x7d catch(e) \x7b\n"
  ++ "      return Object.prototype.toString.call(val);\n"
  ++ "    \x7d\n"
  ++ "  \x7d;\n"
  ++ "\n"
  ++ "  var send = function(type)\x7b\n"
  ++ "    var args = Array.prototype.slice.call(arguments, 1);\n"
  ++ "    // Make sure all arguments are strings\n"
  ++ "    var stringArgs = [];\n"
  ++ "    for (var i = 0; i < args.length; i++) \x7b\n"
  ++ "      stringArgs.push(stringify(args[i]));\n"
  ++ "    \x7d\n"
  ++ "\n"
  ++ "    debug(\x27Sending \x27 + type + \x27 message with \x27 + stringArgs.length + \x27 args\x27);\n"
  ++ "\n"
  ++ "    try \x7b\n"
  ++ "      parent.postMessage(\x7b\n"
  ++ "        __sandbox: true,\n"
  ++ "        secret: SECRET,\n"
  ++ "        type: type,\n"
  ++ "        args: stringArgs\n"
  ++ "      \x7d, \"*\");\n"
  ++ "    \x7d catch(e) \x7b\n"
  ++ "      debug(\x27Failed to send message: \x27 + e.message);\n"
  ++ "    \x7d\n"
  ++ "  \x7d;\n"
  ++ "\n"
  ++ "  // Override console methods\n"
  ++ "  [\"log\",\"info\",\"warn\",\"error\"].forEach(function(m)\x7b\n"
  ++ "    var original = console[m];\n"
  ++ "    console[m] = function()\x7b\n"
  ++ "      var args = Array.prototype.slice.call(arguments);\n"
  ++ "      send.apply(null, [m].concat(args));\n"
  ++ "      // Still call original for debugging\n"
  ++ "      if (original && original.apply) \x7b\n"
  ++ "        try \x7b original.apply(console, arguments); \x7d catch(_) \x7b\x7d\n"
  ++ "      \x7d\n"
  ++ "    \x7d;\n"
  ++ "  \x7d);\n"
  ++ "\n"
  ++ "  // Global error handler\n"
  ++ "  window.addEventListener(\"error\", function(e)\x7b\n"
  ++ "    debug(\x27Error event caught\x27);\n"
  ++ "    debug(\x27Error object: \x27 + e.error);\n"
  ++ "    debug(\x27Error message: \x27 + e.message);\n"
  ++ "    debug(\x27Error lineno: \x27 + e.lineno);\n"
  ++ "\n"
  ++ "    var errorMsg = \x27\x27;\n"
  ++ "    if (e.error) \x7b\n"
  ++ "      // Extract error details manually since stringify might fail\n"
  ++ "      var err = e.error;\n"
  ++ "      errorMsg = (err.name || \x27Error\x27) + \x27: \x27 + (err.message || \x27Unknown error\x27);\n"
  ++ "\n"
  ++ "      // Try to get stack trace\n"
  ++ "      if (err.stack) \x7b\n"
  ++ "        var lines = err.stack.split(\x27\\n\x27);\n"
  ++ "        // First line is usually the error message, skip it if it\x27s redundant\n"
  ++ "        var startIdx = (lines[0].indexOf(err.message) !== -1) ? 1 : 0;\n"
  ++ "\n"
  ++ "        for (var i = startIdx; i < lines.length; i++) \x7b\n"
  ++ "          var line = lines[i].trim();\n"
  ++ "          if (line) \x7b\n"
  ++ "            // Clean up the stack trace line\n"
  ++ "            var match = line.match(/at\\s+(?:(.+?)\\s+\\()?(?:.+?):(\\d+):(\\d+)/);\n"
  ++ "            if (match) \x7b\n"
  ++ "              var fnName = match[1] || \x27anonymous\x27;\n"
  ++ "              errorMsg += \x27\\n    at \x27 + fnName + \x27 (line \x27 + match[2] + \x27, column \x27 + match[3] + \x27)\x27;\n"
  ++ "            \x7d else if (line.indexOf(\x27at \x27) === 0) \x7b\n"
  ++ "              // Keep other \x27at\x27 lines but clean them up\n"
  ++ "              errorMsg += \x27\\n    \x27 + line;\n"
  ++ "            \x7d\n"
  ++ "          \x7d\n"
  ++ "        \x7d\n"
  ++ "      \x7d else if (e.lineno) \x7b\n"
  ++ "        // Fallback to basic location info\n"
  ++ "        errorMsg += \x27\\n    at line \x27 + e.lineno + \x27, column \x27 + e.colno;\n"
  ++ "      \x7d\n"
  ++ "    \x7d else \x7b\n"
  ++ "      // Fallback when no error object\n"
  ++ "      errorMsg = e.message || \x27Unknown error\x27;\n"
  ++ "      if (e.lineno) \x7b\n"
  ++ "        errorMsg += \x27\\n    at line \x27 + e.lineno + \x27, column \x27 + e.colno;\n"
  ++ "      \x7d\n"
  ++ "    \x7d\n"
  ++ "\n"
  ++ "    debug(\x27Formatted error: \x27 + errorMsg);\n"
  ++ "    send(\"error\", errorMsg);\n"
  ++ "\n"
  ++ "    // Prevent default browser error handling\n"
  ++ "    e.preventDefault();\n"
  ++ "    return true;\n"
  ++ "  \x7d);\n"
  ++ "\n"
  ++ "  // Handle promise rejections\n"
  ++ "  window.addEventListener(\"unhandledrejection\", function(e)\x7b\n"
  ++ "    debug(\x27Unhandled rejection caught\x27);\n"
  ++ "    var errorMsg = \"Unhandled Promise Rejection: \" + stringify(e.reason);\n"
  ++ "    send(\"error\", errorMsg);\n"
  ++ "    e.preventDefault();\n"
  ++ "    return true;\n"
  ++ "  \x7d);\n"
  ++ "\n"
  ++ "  // Execute user code\n"
  ++ "  debug(\x27Executing user code...\x27);\n"
  ++ "  try \x7b\n"

/-- Literal fragment 4 of the fallback template (src/ui/sandbox.js, `getFallbackTemplate`). -/
def fbPart4 : String :=
  "\n"
  ++ "  \x7d catch (err) \x7b\n"
  ++ "    debug(\x27Caught error in try-catch: \x27 + err.message);\n"
  ++ "    send(\"error\", stringify(err));\n"
  ++ "  \x7d\n"
  ++ "\n"
  ++ "  // Signal completion\n"
  ++ "  setTimeout(function()\x7b\n"
  ++ "    debug(\x27Sending done signal\x27);\n"
  ++ "    send(\"done\");\n"
  ++ "  \x7d, 0);\n"
  ++ "\x7d)();\n"
  ++ "</script>\n"
  ++ "</body></html>"

/-- `getFallbackTemplate()` (src/ui/sandbox.js): the embedded default template,
written as the template-literal concatenation of its fragments and the four
interpolated markers, exactly as in the source. -/
def getFallbackTemplate : String :=
  fbPart0
  ++ TEMPLATE_MARKERS.DYNAMIC_CSP
  ++ fbPart1
  ++ TEMPLATE_MARKERS.LIBRARY_SCRIPTS
  ++ fbPart2
  ++ TEMPLATE_MARKERS.SECRET
  ++ fbPart3
  ++ TEMPLATE_MARKERS.USER_CODE
  ++ fbPart4

/-- Outcome of the `fetchWithTimeout` call in `initialize()`:
`fetchError` covers a network failure and the bounded-timeout rejection of
`fetchWithTimeout`; `badStatus` a response with `response.ok` false; `ok` a
successful response with its body text. -/
inductive FetchOutcome where
  | fetchError
  | badStatus (status : Nat)
  | ok (text : String)

/-- `initialize()`: skip when already loaded; otherwise fetch the template,
validate it, and on any failure (network, timeout, bad status, missing
markers) fall back to the embedded default template.  The returned Bool
records whether a template fetch was performed. -/
def initializeTE (te : TEState) (fetch : FetchOutcome) : TEState × Bool :=
  if te.isLoaded then (te, false)
  else
    match fetch with
    | .fetchError =>
      ({ te with template := some getFallbackTemplate, isLoaded := true }, true)
    | .badStatus _ =>
      ({ te with template := some getFallbackTemplate, isLoaded := true }, true)
    | .ok text =>
      match validateTemplate text with
      | .ok _ => ({ te with template := some text, isLoaded := true }, true)
      | .error _ =>
        ({ te with template := some getFallbackTemplate, isLoaded := true }, true)

/-- The default CSP of `buildSrcDoc`, used when no dynamic CSP is provided. -/
def defaultCspPolicy : String :=
  "default-src \x27self\x27 \x27unsafe-inline\x27 \x27unsafe-eval\x27 data: blob:; connect-src \x27none\x27;"

/-- `buildSrcDoc(userCode, secret, libraryScripts, dynamicCSP)`: throw when not
initialized; otherwise sanitize the user code, prefix the sourceURL debug
annotation, and substitute the four markers in sequence (secret, user code,
library scripts, CSP), each substitution replacing every occurrence of the
regex-escaped literal marker.  A `none`/empty `dynamicCSP` (JS falsy) selects
the default policy.  `te.template` is an `Option`; states with
`isLoaded = true` always carry `some` template (see `initializeTE`), so the
`getD` default is unreachable there. -/
def buildSrcDoc (te : TEState) (userCode secret libraryScripts : String)
    (dynamicCSP : Option String) : Except String String :=
  if !te.isLoaded then
    Except.error "TemplateEngine not initialized. Call initialize() first."
  else
    let sanitized := sanitizeCode userCode
    let secretValue := secret
    let userCodeWithSourceMap := "//# sourceURL=user-code.js\n" ++ sanitized
    let cspPolicy := match dynamicCSP with
      | some c => if c = "" then defaultCspPolicy else c
      | none => defaultCspPolicy
    let r1 := replaceAllStr (te.template.getD "") TEMPLATE_MARKERS.SECRET secretValue
    let r2 := replaceAllStr r1 TEMPLATE_MARKERS.USER_CODE userCodeWithSourceMap
    let r3 := replaceAllStr r2 TEMPLATE_MARKERS.LIBRARY_SCRIPTS libraryScripts
    let r4 := replaceAllStr r3 TEMPLATE_MARKERS.DYNAMIC_CSP cspPolicy
    Except.ok r4

/-! ### SandboxEngine (src/core/sandbox.js) -/

/-- Shallow JavaScript values, as far as the message handler inspects them:
the `__sandbox`, `secret`, `type` and `args` fields of an incoming
`postMessage` payload can each hold anything. -/
inductive JVal where
  | undef
  | jnull
  | bool (b : Bool)
  | num (n : Int)
  | str (s : String)
  | arr (elems : List JVal)

/-- JavaScript truthiness (numbers modelled as integers; `0` is falsy). -/
def JVal.truthy : JVal → Bool
  | .undef => false
  | .jnull => false
  | .bool b => b
  | .num n => n != 0
  | .str s => s != ""
  | .arr _ => true

/-- JavaScript strict equality `v === s` against a string literal/value: true
exactly when `v` is a string with equal contents. -/
def JVal.strEq (v : JVal) (s : String) : Bool :=
  match v with
  | .str t => t == s
  | _ => false

/-- JavaScript `Array.isArray`. -/
def JVal.isArray : JVal → Bool
  | .arr _ => true
  | _ => false

/-- The fields of `ev.data` that `setupMessageListener` reads.  A falsy or
non-object `ev.data` (the `ev.data || {}` guard) corresponds to the envelope
whose fields are all `undef`. -/
structure Envelope where
  sandboxField : JVal
  secretField : JVal
  typeField : JVal
  argsField : JVal

/-- A `message` event: its `source` window (an opaque handle) and its data. -/
structure MessageEvent where
  source : Nat
  data : Envelope

/-- One observable output of the engine: a call of the caller's `onMessage`
sink (kind, args) or of the `onStatusChange` sink. -/
inductive Emit where
  | message (kind : JVal) (args : List JVal)
  | status (s : String)

/-- A parse error produced by the host JavaScript parser (`new Function`). -/
structure JSError where
  name : String
  message : String

/-- State of a `SandboxEngine` instance.  `contextWindow` is the opaque handle
of `iframe.contentWindow` (`none` when there is no iframe); `nextWindow`
supplies the handle of the next iframe `createIframe` builds, so a re-created
context always has a fresh handle.  `iframeSrcdoc` mirrors `iframe.srcdoc`.
`killTimer` records whether the timeout timer is armed.  `secretStream` and
`secretIdx` model the randomness source behind `generateSecret` (crypto or
fallback): each call consumes the next value of the stream. -/
structure EngineState where
  timeLimit : Nat
  currentSecret : String
  contextWindow : Option Nat
  nextWindow : Nat
  iframeSrcdoc : Option String
  killTimer : Bool
  secretStream : Nat → String
  secretIdx : Nat
  templateEngine : TEState

/-- `generateSecret()`: draw the next value from the randomness stream. -/
def generateSecret (st : EngineState) : EngineState × String :=
  ({ st with secretIdx := st.secretIdx + 1 }, st.secretStream st.secretIdx)

/-- `createIframe()`: clear the container and attach a brand-new iframe, whose
`contentWindow` is a fresh handle with no srcdoc. -/
def createIframe (st : EngineState) : EngineState :=
  { st with contextWindow := some st.nextWindow,
            nextWindow := st.nextWindow + 1,
            iframeSrcdoc := none }

/-- `reset()`: cancel any pending kill timer, re-create the iframe, and report
status `reset`. -/
def reset (st : EngineState) : EngineState × List Emit :=
  let st := if st.killTimer then { st with killTimer := false } else st
  (createIframe st, [Emit.status "reset"])

/-- The callback armed by `execute` via `setTimeout(…, this.timeLimit)`: on
expiry emit the synthesized timeout error message, `reset()`, then report
status `timeout`. -/
def onTimeout (st : EngineState) : EngineState × List Emit :=
  let errMsg := Emit.message (JVal.str "error")
    [JVal.str ("⏱️ Execution timeout (" ++ toString st.timeLimit ++ "ms). Sandbox reset.")]
  let r := reset st
  (r.1, errMsg :: r.2 ++ [Emit.status "timeout"])

/-- `validateSyntax(code)` result object (`toString` reconstructs
`name + ": " + message`). -/
structure SyntaxValidation where
  valid : Bool
  error : Option String
  name : Option String
deriving DecidableEq

/-- `validateSyntax(code)`: hand the code to the host parser (`new Function`,
a construct-only parse, modelled by the `jsParse` argument) and report its
error, if any, without throwing. -/
def validateSyntax (jsParse : String → Option JSError) (code : String) :
    SyntaxValidation :=
  match jsParse code with
  | none => ⟨true, none, none⟩
  | some e => ⟨false, some e.message, some e.name⟩

/-- The `libraryData` argument of `execute`. -/
structure LibraryData where
  scripts : String
  csp : Option String

/-- The message handler installed by `setupMessageListener()`: drop the event
unless its source is the current iframe window; drop it unless its data
carries a truthy `__sandbox` marker and a `secret` strictly equal to the
currently active secret; normalize a falsy `type` to `"log"` and a non-array
`args` to a one-element list; on `done`, cancel the timer and report
completion; otherwise forward `(type, args)` to the caller's message sink. -/
def handleMessage (st : EngineState) (ev : MessageEvent) : EngineState × List Emit :=
  if st.contextWindow ≠ some ev.source then (st, [])
  else
    let data := ev.data
    if !data.sandboxField.truthy || !data.secretField.strEq st.currentSecret then
      (st, [])
    else
      let type := if data.typeField.truthy then data.typeField else JVal.str "log"
      let args := match data.argsField with
        | JVal.arr elems => elems
        | v => [v]
      if type.strEq "done" then
        let st := if st.killTimer then { st with killTimer := false } else st
        (st, [Emit.status "completed"])
      else
        -- (kind `error` is additionally logged through `logger.warn`; logging
        -- is not modelled)
        (st, [Emit.message type args])

/-- `execute(code, libraryData)`: ensure the template is loaded, validate
syntax (short-circuiting with an `error` message and status `completed`),
generate a fresh secret, render the srcdoc via the template engine, install it
into the iframe, report status `executing`, and (re-)arm the kill timer.  The
`fetch` argument feeds the template-engine initialization performed when the
template is not yet loaded; a `buildSrcDoc` failure (impossible once the
template is loaded) would surface as a thrown exception in the source and is
modelled as producing no emission. -/
def execute (jsParse : String → Option JSError) (fetch : FetchOutcome)
    (st : EngineState) (code : String) (libraryData : Option LibraryData) :
    EngineState × List Emit :=
  let st :=
    if !st.templateEngine.isLoaded then
      { st with templateEngine := (initializeTE st.templateEngine fetch).1 }
    else st
  match jsParse code with
  | some e =>
    -- `validateSyntax` returned `valid: false`; emit `validation.toString()`
    (st, [Emit.message (JVal.str "error") [JVal.str (e.name ++ ": " ++ e.message)],
          Emit.status "completed"])
  | none =>
    let g := generateSecret st
    let st := { g.1 with currentSecret := g.2 }
    let libraryScripts := match libraryData with
      | some ld => ld.scripts
      | none => ""
    let dynamicCSP := match libraryData with
      | some ld => match ld.csp with
        | some c => if c = "" then none else some c
        | none => none
      | none => none
    match buildSrcDoc st.templateEngine code st.currentSecret libraryScripts dynamicCSP with
    | .error _ => (st, [])
    | .ok srcdoc =>
      let st := { st with iframeSrcdoc := some srcdoc }
      ({ st with killTimer := true }, [Emit.status "executing"])

/-! ### LibraryManager (src/libraries/manager.js)

The manager shares an `EventEmitter` with the UI; `EventEmitter.emit`
(src/core/events.js) invokes all listeners synchronously.  The manager's own
constructor (`setupEventListeners`) subscribes `addDomain` to the
`DOMAIN_TRUST_REQUEST` event, so emitting that event from `addLibrary`
immediately runs `addDomain` on the same manager.  Listeners registered by
the excluded UI layer (the library dialog) are outside the model.  Emission
is modelled as an append-only event log in the state, with the manager's own
listener reaction applied inline.  `Date.now()`/`Math.random()` entropy in
`generateId`/`addedAt` is abstracted to the logical counter `idCounter`;
`generateScriptTags` (bundle fetching) and logging are not needed by any
claim and are omitted. -/

/-- The components of a parsed `new URL(url)` that the manager reads. -/
structure URLParts where
  hostname : String
  pathname : String

/-- A stored `LibraryReference`. -/
structure Library where
  id : String
  name : String
  url : String
  domain : String
  addedAt : Nat
deriving DecidableEq

/-- Events emitted through the shared emitter, as far as the manager emits
them (`EVENTS.DOMAIN_TRUST_REQUEST`, `EVENTS.DOMAIN_ADDED`,
`EVENTS.DOMAIN_REMOVED`, `EVENTS.LIBRARY_ADDED`, `EVENTS.LIBRARY_REMOVED`,
`EVENTS.LIBRARIES_CLEARED`). -/
inductive MEvent where
  | domainTrustRequest (domain url name : String)
  | domainAdded (domain : String)
  | domainRemoved (domain : String)
  | libraryAdded (library : Library)
  | libraryRemoved (library : Library)
  | librariesCleared
deriving DecidableEq

/-- One `localStorage` slot as `loadFromStorage` sees it: missing, present
but failing `JSON.parse` (or otherwise throwing), or parsed data. -/
inductive StorageItem (α : Type) where
  | absent
  | corrupt
  | ok (val : α)
deriving DecidableEq

/-- The two persisted slots (`storageKey`, `allowlistKey`). -/
structure StorageData where
  librariesData : StorageItem (List Library)
  domainsData : StorageItem (List String)
deriving DecidableEq

/-- The built-in `defaultDomains` allow-list. -/
def defaultDomains : List String :=
  ["cdnjs.cloudflare.com", "unpkg.com", "jsdelivr.net",
   "code.jquery.com", "stackpath.bootstrapcdn.com"]

/-- State of a `LibraryManager` instance (the fetched-content cache is not
modelled; no claim depends on it). -/
structure ManagerState where
  libraries : List Library
  allowedDomains : List String
  storage : StorageData
  events : List MEvent
  idCounter : Nat
deriving DecidableEq

/-- `loadFromStorage()`: parse both slots; any parse failure falls back to an
empty library list with the default domains; otherwise merge defaults with
the saved domains through `[...new Set(...)]`. -/
def loadFromStorage (storage : StorageData) : List Library × List String :=
  match storage.librariesData, storage.domainsData with
  | .corrupt, _ => ([], defaultDomains)
  | _, .corrupt => ([], defaultDomains)
  | libsD, domsD =>
    let libraries := match libsD with
      | .ok l => l
      | _ => []
    let savedDomains := match domsD with
      | .ok l => l
      | _ => []
    (libraries, setDedup (defaultDomains ++ savedDomains))

/-- The `LibraryManager` constructor: load persisted state (the event-listener
wiring it also performs is reflected inside `addLibrary`). -/
def mkManager (storage : StorageData) : ManagerState :=
  let loaded := loadFromStorage storage
  ⟨loaded.1, loaded.2, storage, [], 0⟩

/-- `saveLibraries()`: serialize the library list into its slot. -/
def saveLibraries (st : ManagerState) : ManagerState :=
  { st with storage := { st.storage with librariesData := .ok st.libraries } }

/-- `saveDomains()`: persist only the non-default domains. -/
def saveDomains (st : ManagerState) : ManagerState :=
  let customDomains := st.allowedDomains.filter (fun d => !defaultDomains.contains d)
  { st with storage := { st.storage with domainsData := StorageItem.ok customDomains } }

/-- `generateId()` (`"lib_" + Date.now() + "_" + random`), with the entropy
abstracted to the logical counter. -/
def generateId (st : ManagerState) : String := "lib_" ++ toString st.idCounter

/-- `extractDomain(url)`: `new URL(url).hostname`, `null` on parse failure. -/
def extractDomain (newURL : String → Option URLParts) (url : String) : Option String :=
  (newURL url).map URLParts.hostname

/-- `isDomainAllowed(domain)`. -/
def isDomainAllowed (st : ManagerState) (domain : String) : Bool :=
  st.allowedDomains.contains domain

/-- `url.match(/\.js(\?.*)?$/i)` truthiness: the lower-cased URL either ends
in `.js` or contains `.js?` (after which `.*$` matches the rest).  URLs are
assumed newline-free (regex `.` does not match newlines). -/
def jsUrlMatch (url : String) : Bool :=
  let l := url.data.map Char.toLower
  ".js".data.isSuffixOf l || infixB ".js?".data l

/-- Result shapes of `validateLibraryUrl` (the JS object has `valid`,
`error`, `domain`, `domainAllowed`, `needsDomainApproval = !domainAllowed`). -/
inductive LibValidation where
  | invalid (error : String)
  | valid (domain : String) (domainAllowed : Bool)
deriving DecidableEq

/-- `validateLibraryUrl(url)`: reject a falsy/non-string URL, a falsy domain
(`extractDomain` returning null, or an empty hostname — `if (!domain)`), and
a URL that does not point at a `.js` resource; otherwise report the domain
and whether it is allowed. -/
def validateLibraryUrl (newURL : String → Option URLParts) (st : ManagerState)
    (url : String) : LibValidation :=
  if url = "" then .invalid "URL is required"
  else
    match extractDomain newURL url with
    | none => .invalid "Invalid URL format"
    | some domain =>
      if domain = "" then .invalid "Invalid URL format"
      else if !jsUrlMatch url then .invalid "URL must point to a JavaScript file (.js)"
      else .valid domain (isDomainAllowed st domain)

/-- `filename.replace(/\.(min\.)?js$/, "")` (case-sensitive, anchored): strip
a trailing `.min.js`, else a trailing `.js`. -/
def stripJsExt (filename : List Char) : List Char :=
  if ".min.js".data.isSuffixOf filename then filename.take (filename.length - 7)
  else if ".js".data.isSuffixOf filename then filename.take (filename.length - 3)
  else filename

/-- `pathname.split("/").pop()`: the text after the last `/`. -/
def lastComponent (l : List Char) : List Char :=
  l.foldl (fun acc c => if c = '/' then [] else acc ++ [c]) []

/-- JavaScript `String.prototype.trim`. -/
def jsTrim (l : List Char) : List Char :=
  ((l.dropWhile Char.isWhitespace).reverse.dropWhile Char.isWhitespace).reverse

/-- Matcher for `/^(.+?)[-.][\d]/`: the capture is the shortest non-empty
prefix followed by `-` or `.` and a digit (strings assumed newline-free). -/
def p1go (acc : List Char) : List Char → Option (List Char)
  | [] => none
  | x :: xs =>
    if (x = '-' || x = '.') && (match xs with | d :: _ => d.isDigit | [] => false) then
      some acc.reverse
    else p1go (x :: acc) xs

/-- `^(.+?)[-.][\d]` applied to a whole string. -/
def matchNameVersion (s : List Char) : Option (List Char) :=
  match s with
  | [] => none
  | c :: rest => p1go [c] rest

/-- `match[1].charAt(0).toUpperCase() + match[1].slice(1)`. -/
def capitalizeFirst (s : List Char) : List Char :=
  match s with
  | [] => []
  | c :: rest => c.toUpper :: rest

/-- `guessLibraryName(url)`: best-guess display name from the URL's filename,
trying the source's three patterns in order (`name-version`/`name.version`,
`name.min`, fallback to the whole name); any `new URL` failure or an empty
result yields `"Unknown Library"`. -/
def guessLibraryName (newURL : String → Option URLParts) (url : String) : String :=
  match newURL url with
  | none => "Unknown Library"
  | some parts =>
    let filename := lastComponent parts.pathname.data
    let nameWithoutExt := stripJsExt filename
    match matchNameVersion nameWithoutExt with
    | some cap => ⟨capitalizeFirst cap⟩
    | none =>
      if ".min".data.isSuffixOf nameWithoutExt && nameWithoutExt.length > 4 then
        ⟨capitalizeFirst (nameWithoutExt.take (nameWithoutExt.length - 4))⟩
      else if nameWithoutExt ≠ [] then ⟨capitalizeFirst nameWithoutExt⟩
      else "Unknown Library"

/-- `addDomain(domain)`: reject a falsy or already-present domain; otherwise
append it, persist, and emit `DOMAIN_ADDED`. -/
def addDomain (st : ManagerState) (domain : String) : ManagerState × Bool :=
  if domain = "" || st.allowedDomains.contains domain then (st, false)
  else
    let st := { st with allowedDomains := st.allowedDomains ++ [domain] }
    let st := saveDomains st
    ({ st with events := st.events ++ [MEvent.domainAdded domain] }, true)

/-- `removeDomain(domain)`: refuse for a built-in default; refuse when absent;
otherwise splice out the first occurrence, persist, and emit
`DOMAIN_REMOVED`. -/
def removeDomain (st : ManagerState) (domain : String) : ManagerState × Bool :=
  if defaultDomains.contains domain then (st, false)
  else if !st.allowedDomains.contains domain then (st, false)
  else
    let st := { st with allowedDomains := st.allowedDomains.erase domain }
    let st := saveDomains st
    ({ st with events := st.events ++ [MEvent.domainRemoved domain] }, true)

/-- Result shapes of `addLibrary` (`{success:false, error}`,
`{success:false, needsApproval:true, domain}`, `{success:true, library}`). -/
inductive AddLibraryResult where
  | failure (error : String)
  | needsApproval (domain : String)
  | added (library : Library)
deriving DecidableEq

/-- `addLibrary(url, name)`: validate the URL; reject duplicates by URL; for
an untrusted domain, emit one `DOMAIN_TRUST_REQUEST` (whose payload name
falls back to `guessLibraryName`) and return the needs-approval result —
the manager's own event listener reacts by calling `addDomain`; otherwise
create the reference, append it, persist, and emit `LIBRARY_ADDED`.
A JS falsy `name` (absent or empty) selects the guessed name. -/
def addLibrary (newURL : String → Option URLParts) (st : ManagerState)
    (url : String) (name : Option String) : ManagerState × AddLibraryResult :=
  match validateLibraryUrl newURL st url with
  | .invalid e => (st, .failure e)
  | .valid domain domainAllowed =>
    if st.libraries.any (fun lib => lib.url == url) then
      (st, .failure "Library already added")
    else
      let displayName := match name with
        | some n => if n = "" then guessLibraryName newURL url else n
        | none => guessLibraryName newURL url
      if !domainAllowed then
        let st := { st with events :=
          st.events ++ [MEvent.domainTrustRequest domain url displayName] }
        -- setupEventListeners: the manager's own DOMAIN_TRUST_REQUEST listener
        -- runs synchronously inside emit and calls addDomain(domain)
        let st := (addDomain st domain).1
        (st, .needsApproval domain)
      else
        let library : Library :=
          ⟨generateId st, displayName, ⟨jsTrim url.data⟩, domain, st.idCounter⟩
        let st := { st with libraries := st.libraries ++ [library],
                            idCounter := st.idCounter + 1 }
        let st := saveLibraries st
        ({ st with events := st.events ++ [MEvent.libraryAdded library] }, .added library)

/-- `removeLibrary(id)`: splice out the library at the index of the first
matching id, persist, and emit `LIBRARY_REMOVED`; false when not found. -/
def removeLibrary (st : ManagerState) (id : String) : ManagerState × Bool :=
  match st.libraries.find? (fun lib => lib.id == id) with
  | none => (st, false)
  | some removed =>
    let st := { st with libraries := st.libraries.eraseP (fun lib => lib.id == id) }
    let st := saveLibraries st
    ({ st with events := st.events ++ [MEvent.libraryRemoved removed] }, true)

/-- `getLibraries()` (returns a copy of the list). -/
def getLibraries (st : ManagerState) : List Library := st.libraries

/-- `getAllowedDomains()` (returns a copy of the list). -/
def getAllowedDomains (st : ManagerState) : List String := st.allowedDomains

/-- The `scriptSrc` array assembled by `generateCSP()`, joined with spaces. -/
def scriptSrcList (st : ManagerState) : List String :=
  "\x27self\x27" :: "\x27unsafe-inline\x27" :: "\x27unsafe-eval\x27" ::
    st.allowedDomains.map (fun domain => "https://" ++ domain)

/-- `generateCSP()`: the dynamic policy string allowlisting scripts from self
plus every allowed domain and denying outbound connections. -/
def generateCSP (st : ManagerState) : String :=
  "default-src \x27self\x27 \x27unsafe-inline\x27 \x27unsafe-eval\x27 data: blob:; script-src "
    ++ joinSep " " (scriptSrcList st) ++ "; connect-src \x27none\x27;"

/-- `clear()`: drop all libraries and custom domains and both storage slots,
then emit `LIBRARIES_CLEARED`. -/
def clear (st : ManagerState) : ManagerState :=
  { st with libraries := [],
            allowedDomains := defaultDomains,
            storage := ⟨.absent, .absent⟩,
            events := st.events ++ [MEvent.librariesCleared] }

/-- `destroy()`: drop all libraries and all allowed domains (the manager is
torn down; the storage slots and the event log are left as they are). -/
def destroy (st : ManagerState) : ManagerState :=
  { st with libraries := [], allowedDomains := [] }

/-- The manager states reachable from construction (over any persisted data,
however corrupt) through the public operations, in any order.  Every public
mutating operation of src/libraries/manager.js appears, `destroy` included. -/
inductive Reachable (newURL : String → Option URLParts) : ManagerState → Prop where
  | mk (storage : StorageData) : Reachable newURL (mkManager storage)
  | addLib {st} (url : String) (name : Option String) :
      Reachable newURL st → Reachable newURL (addLibrary newURL st url name).1
  | remLib {st} (id : String) :
      Reachable newURL st → Reachable newURL (removeLibrary st id).1
  | addDom {st} (domain : String) :
      Reachable newURL st → Reachable newURL (addDomain st domain).1
  | remDom {st} (domain : String) :
      Reachable newURL st → Reachable newURL (removeDomain st domain).1
  | clearOp {st} :
      Reachable newURL st → Reachable newURL (clear st)
  | destroyOp {st} :
      Reachable newURL st → Reachable newURL (destroy st)

/-- The manager states reachable through every public mutating operation
other than `destroy()` (which tears the manager down and empties the
allow-list wholesale). -/
inductive ReachableNoDestroy (newURL : String → Option URLParts) : ManagerState → Prop where
  | mk (storage : StorageData) : ReachableNoDestroy newURL (mkManager storage)
  | addLib {st} (url : String) (name : Option String) :
      ReachableNoDestroy newURL st →
      ReachableNoDestroy newURL (addLibrary newURL st url name).1
  | remLib {st} (id : String) :
      ReachableNoDestroy newURL st → ReachableNoDestroy newURL (removeLibrary st id).1
  | addDom {st} (domain : String) :
      ReachableNoDestroy newURL st → ReachableNoDestroy newURL (addDomain st domain).1
  | remDom {st} (domain : String) :
      ReachableNoDestroy newURL st → ReachableNoDestroy newURL (removeDomain st domain).1
  | clearOp {st} :
      ReachableNoDestroy newURL st → ReachableNoDestroy newURL (clear st)

/-! ### Engine theorems -/

theorem JVal.strEq_iff (v : JVal) (s : String) : v.strEq s = true ↔ v = JVal.str s := by
  cases v <;> simp [JVal.strEq]

/-- The `args` normalization of the message handler:
`Array.isArray(data.args) ? data.args : [data.args]`. -/
def normalizeArgs (v : JVal) : List JVal :=
  match v with
  | JVal.arr elems => elems
  | v => [v]

/-- The acceptance condition of the message handler: the event's source is
the current iframe window, the envelope carries a truthy `__sandbox` marker,
and its `secret` is strictly equal to the currently active secret. -/
def accepts (st : EngineState) (ev : MessageEvent) : Prop :=
  st.contextWindow = some ev.source ∧
  ev.data.sandboxField.truthy = true ∧
  ev.data.secretField = JVal.str st.currentSecret

instance (st : EngineState) (ev : MessageEvent) : Decidable (accepts st ev) := by
  unfold accepts
  have : Decidable (ev.data.secretField = JVal.str st.currentSecret) :=
    decidable_of_iff _ (JVal.strEq_iff ev.data.secretField st.currentSecret)
  exact instDecidableAnd

/-- C1: for every inbound message event, the Engine accepts the message
(forwards it to the message sink or processes it as the `done` status signal)
if and only if the source is the currently active context window, the
envelope carries the `__sandbox` authenticity marker, and the envelope's
secret equals the currently active secret; any message failing any of these
checks — error-kind messages from a superseded run included — is dropped with
no emission and no change to the engine state. -/
theorem accept_iff_source_marker_secret (st : EngineState) (ev : MessageEvent) :
    ((handleMessage st ev).2 ≠ [] ↔ accepts st ev) ∧
    (¬ accepts st ev → handleMessage st ev = (st, [])) := by
  by_cases h1 : st.contextWindow = some ev.source
  · by_cases h2 : ev.data.sandboxField.truthy = true
    · by_cases h3 : ev.data.secretField = JVal.str st.currentSecret
      · have hacc : accepts st ev := ⟨h1, h2, h3⟩
        have hs : ev.data.secretField.strEq st.currentSecret = true :=
          (JVal.strEq_iff _ _).mpr h3
        refine ⟨⟨fun _ => hacc, fun _ => ?_⟩, fun hn => absurd hacc hn⟩
        simp only [handleMessage]
        rw [if_neg (by simp [h1])]
        simp only [h2, hs, Bool.not_true, Bool.or_self, Bool.false_eq_true, if_false]
        split <;> split <;> simp
      · have hs : ev.data.secretField.strEq st.currentSecret = false := by
          cases hq : ev.data.secretField.strEq st.currentSecret
          · rfl
          · exact absurd ((JVal.strEq_iff _ _).mp hq) h3
        have hrej : handleMessage st ev = (st, []) := by
          simp [handleMessage, h1, hs]
        have hnacc : ¬ accepts st ev := fun h => h3 h.2.2
        exact ⟨by rw [hrej]; simpa using hnacc, fun _ => hrej⟩
    · have h2f : ev.data.sandboxField.truthy = false := by
        cases hq : ev.data.sandboxField.truthy
        · rfl
        · exact absurd hq h2
      have hrej : handleMessage st ev = (st, []) := by
        simp [handleMessage, h1, h2f]
      have hnacc : ¬ accepts st ev := fun h => h2 h.2.1
      exact ⟨by rw [hrej]; simpa using hnacc, fun _ => hrej⟩
  · have hrej : handleMessage st ev = (st, []) := by
      simp [handleMessage, h1]
    have hnacc : ¬ accepts st ev := fun h => h1 h.1
    exact ⟨by rw [hrej]; simpa using hnacc, fun _ => hrej⟩

/-- Witness for C1: a stale-secret `error`-kind envelope from the live window
is dropped without any effect (the claim's theorem applied at a concrete
input). -/
theorem accept_iff_source_marker_secret_witness :
    handleMessage ⟨4000, "fresh", some 7, 8, none, true, fun _ => "ns", 0,
        ⟨DEFAULT_TEMPLATE_PATH, some "T", true⟩⟩
      ⟨7, ⟨JVal.bool true, JVal.str "stale", JVal.str "error", JVal.arr []⟩⟩ =
    (⟨4000, "fresh", some 7, 8, none, true, fun _ => "ns", 0,
        ⟨DEFAULT_TEMPLATE_PATH, some "T", true⟩⟩, []) :=
  (accept_iff_source_marker_secret _ _).2 (fun h => by
    have := h.2.2
    simp at this)

/-- C10: for every accepted message the handler normalizes the envelope
before dispatch: a missing/falsy `type` is forwarded as kind `"log"`, a
non-array `args` is wrapped into a one-element list, and any truthy kind
other than `done` — enum member or not — is forwarded to the sink unchanged. -/
theorem handler_normalizes_type_and_args (st : EngineState) (ev : MessageEvent)
    (hacc : accepts st ev) :
    (ev.data.typeField.truthy = false →
      (handleMessage st ev).2 =
        [Emit.message (JVal.str "log") (normalizeArgs ev.data.argsField)]) ∧
    (ev.data.typeField.truthy = true → ev.data.typeField.strEq "done" = false →
      (handleMessage st ev).2 =
        [Emit.message ev.data.typeField (normalizeArgs ev.data.argsField)]) ∧
    (ev.data.argsField.isArray = false →
      normalizeArgs ev.data.argsField = [ev.data.argsField]) ∧
    (∀ elems, ev.data.argsField = JVal.arr elems →
      normalizeArgs ev.data.argsField = elems) := by
  obtain ⟨h1, h2, h3⟩ := hacc
  have hs : ev.data.secretField.strEq st.currentSecret = true :=
    (JVal.strEq_iff _ _).mpr h3
  have hlog : (JVal.str "log").strEq "done" = false := by decide
  refine ⟨?_, ?_, ?_, ?_⟩
  · intro ht
    simp only [handleMessage]
    rw [if_neg (by simp [h1])]
    simp [h2, hs, ht, hlog, normalizeArgs]
  · intro ht hdone
    simp only [handleMessage]
    rw [if_neg (by simp [h1])]
    simp [h2, hs, ht, hdone, normalizeArgs]
  · intro hna
    cases hv : ev.data.argsField <;> simp [normalizeArgs]
    rw [hv] at hna
    simp [JVal.isArray] at hna
  · intro elems he
    rw [he]
    simp [normalizeArgs]

/-- Witness for C10: an accepted envelope with an absent (`undefined`) `type`
and a non-array numeric `args` is forwarded as `("log", [5])`. -/
theorem handler_normalizes_type_and_args_witness :
    (handleMessage ⟨4000, "sec", some 7, 8, none, false, fun _ => "ns", 0,
        ⟨DEFAULT_TEMPLATE_PATH, some "T", true⟩⟩
      ⟨7, ⟨JVal.bool true, JVal.str "sec", JVal.undef, JVal.num 5⟩⟩).2 =
    [Emit.message (JVal.str "log") [JVal.num 5]] := by
  have h := (handler_normalizes_type_and_args
    ⟨4000, "sec", some 7, 8, none, false, fun _ => "ns", 0,
        ⟨DEFAULT_TEMPLATE_PATH, some "T", true⟩⟩
    ⟨7, ⟨JVal.bool true, JVal.str "sec", JVal.undef, JVal.num 5⟩⟩
    ⟨rfl, rfl, rfl⟩).1 rfl
  simpa [normalizeArgs] using h

/-- The sequence of status-sink calls among a list of emissions. -/
def statusesOf (l : List Emit) : List String :=
  l.filterMap (fun e => match e with | .status s => some s | _ => none)

/-- A concrete engine state with an armed kill timer about to expire. -/
def ceTimeoutState : EngineState :=
  ⟨4000, "sec", some 0, 1, none, true, fun _ => "s", 0,
   ⟨DEFAULT_TEMPLATE_PATH, none, false⟩⟩

/-- Counterexample to C3 as stated: on timer expiry the engine reports the
`reset` status (inside `reset()`) strictly before the `timeout` status, not
after it — the status sequence is `["reset", "timeout"]`, so the `timeout`
status is not delivered before the `reset` status. -/
theorem timeout_after_reset_counterexample :
    statusesOf (onTimeout ceTimeoutState).2 = ["reset", "timeout"] ∧
    ¬ ((statusesOf (onTimeout ceTimeoutState).2).indexOf "timeout" <
       (statusesOf (onTimeout ceTimeoutState).2).indexOf "reset") := by
  constructor <;> decide

/-- C3 (amended): on timer expiry before `done`, the engine emits the
synthesized error message stating the configured timeout duration, then
performs the automatic reset (cancel timer, fresh context handle, status
`reset`), and then reports status `timeout` — the `reset` status precedes the
`timeout` status. -/
theorem timeout_emission_order (st : EngineState) :
    onTimeout st =
      ({ st with killTimer := false, iframeSrcdoc := none,
                 contextWindow := some st.nextWindow, nextWindow := st.nextWindow + 1 },
       [Emit.message (JVal.str "error")
          [JVal.str ("⏱️ Execution timeout (" ++ toString st.timeLimit ++ "ms). Sandbox reset.")],
        Emit.status "reset", Emit.status "timeout"]) := by
  obtain ⟨tl, cs, cw, nw, sd, kt, ss, si, te⟩ := st
  cases kt <;> simp [onTimeout, reset, createIframe]

/-- C4: code that fails the construct-only parse is reported, not thrown:
`validateSyntax` returns `valid: false` with the parser's error name and
message, and `execute` immediately emits exactly one `error`-kind message
(the validation's `toString`, `name: message`) followed by status
`completed`, leaving the engine state untouched — no new secret is drawn, no
srcdoc is installed, and the kill timer is not armed. -/
theorem syntax_error_short_circuits (jsParse : String → Option JSError)
    (fetch : FetchOutcome) (st : EngineState) (code : String) (e : JSError)
    (hparse : jsParse code = some e)
    (hloaded : st.templateEngine.isLoaded = true) :
    validateSyntax jsParse code = ⟨false, some e.message, some e.name⟩ ∧
    execute jsParse fetch st code none =
      (st, [Emit.message (JVal.str "error") [JVal.str (e.name ++ ": " ++ e.message)],
            Emit.status "completed"]) := by
  constructor
  · simp [validateSyntax, hparse]
  · simp [execute, hloaded, hparse]

/-- Witness for C4: a concrete parser rejecting a concrete input makes
`execute` report and complete without touching the concrete engine state. -/
theorem syntax_error_short_circuits_witness :
    execute (fun c => if c = "function (" then some ⟨"SyntaxError", "Unexpected token"⟩ else none)
        FetchOutcome.fetchError
        ⟨4000, "sec", some 7, 8, none, false, fun _ => "ns", 0,
         ⟨DEFAULT_TEMPLATE_PATH, some "T", true⟩⟩
        "function (" none =
      (⟨4000, "sec", some 7, 8, none, false, fun _ => "ns", 0,
        ⟨DEFAULT_TEMPLATE_PATH, some "T", true⟩⟩,
       [Emit.message (JVal.str "error") [JVal.str "SyntaxError: Unexpected token"],
        Emit.status "completed"]) := by
  have h := (syntax_error_short_circuits
    (fun c => if c = "function (" then some ⟨"SyntaxError", "Unexpected token"⟩ else none)
    FetchOutcome.fetchError
    ⟨4000, "sec", some 7, 8, none, false, fun _ => "ns", 0,
     ⟨DEFAULT_TEMPLATE_PATH, some "T", true⟩⟩
    "function (" ⟨"SyntaxError", "Unexpected token"⟩ (by simp) rfl).2
  simpa using h

/-! ### TemplateEngine theorems -/

theorem initializeTE_isLoaded (te : TEState) (f : FetchOutcome) :
    ((initializeTE te f).1).isLoaded = true := by
  by_cases h : te.isLoaded
  · simp [initializeTE, h]
  · cases f with
    | fetchError => simp [initializeTE, h]
    | badStatus s => simp [initializeTE, h]
    | ok text =>
      cases hv : validateTemplate text <;> simp [initializeTE, h, hv]

/-- C9: `initialize()` is idempotent: once a first call has completed, a
second call without an intervening `forceReload()` performs no template fetch
and leaves the engine state (and so the loaded template) unchanged, so two
consecutive calls perform at most one fetch in total. -/
theorem initializeTE_idempotent (te : TEState) (f f2 : FetchOutcome) :
    initializeTE (initializeTE te f).1 f2 = ((initializeTE te f).1, false) ∧
    (initializeTE te f).2.toNat + (initializeTE (initializeTE te f).1 f2).2.toNat ≤ 1 := by
  have hloaded := initializeTE_isLoaded te f
  have hsecond : initializeTE (initializeTE te f).1 f2 = ((initializeTE te f).1, false) := by
    rw [initializeTE.eq_def, if_pos hloaded]
  refine ⟨hsecond, ?_⟩
  rw [hsecond]
  cases hb : (initializeTE te f).2 <;> simp

theorem strIncludes_of_infix {s m : String} (h : m.data <:+: s.data) :
    strIncludes s m = true := (infixB_iff m.data s.data).mpr h

theorem infix_joinSep (sep m : String) :
    ∀ (l : List String), m ∈ l → m.data <:+: (joinSep sep l).data := by
  intro l
  induction l with
  | nil => simp
  | cons x xs ih =>
    intro hm
    cases xs with
    | nil =>
      have hx : m = x := by simpa using hm
      subst hx
      exact ⟨[], [], by simp [joinSep]⟩
    | cons y rest =>
      rcases List.mem_cons.mp hm with h | h
      · subst h
        exact ⟨[], (sep ++ joinSep sep (y :: rest)).data, by simp [joinSep]⟩
      · obtain ⟨a, b, hab⟩ := ih h
        refine ⟨(x ++ sep).data ++ a, b, ?_⟩
        simp only [joinSep, String.data_append, List.append_assoc]
        rw [← List.append_assoc a, hab]

theorem validateTemplate_ok_iff (t : String) :
    validateTemplate t = Except.ok () ↔
      ∀ m ∈ requiredMarkers, strIncludes t m = true := by
  simp only [validateTemplate]
  rcases h : requiredMarkers.filter (fun m => !(strIncludes t m)) with _ | ⟨x, xs⟩
  · simp only [List.isEmpty_nil, if_true]
    constructor
    · intro _ m hm
      have := List.filter_eq_nil_iff.mp h m hm
      simpa using this
    · intro _; trivial
  · have hx : x ∈ requiredMarkers.filter (fun m => !(strIncludes t m)) := by
      rw [h]; exact List.mem_cons_self x xs
    have hx2 := List.mem_filter.mp hx
    refine iff_of_false (by simp [List.isEmpty_cons]) ?_
    intro hall
    have := hall x hx2.1
    simp [this] at hx2

theorem validateTemplate_error_names (t e m : String)
    (he : validateTemplate t = Except.error e) (hm : m ∈ requiredMarkers)
    (hmiss : strIncludes t m = false) : strIncludes e m = true := by
  simp only [validateTemplate] at he
  rcases h : requiredMarkers.filter (fun mm => !(strIncludes t mm)) with _ | ⟨x, xs⟩
  · rw [h] at he; simp at he
  · rw [h] at he
    simp only [List.isEmpty_cons, Bool.false_eq_true, if_false, Except.error.injEq] at he
    subst he
    have hmem : m ∈ requiredMarkers.filter (fun mm => !(strIncludes t mm)) :=
      List.mem_filter.mpr ⟨hm, by simp [hmiss]⟩
    rw [h] at hmem
    obtain ⟨a, b, hab⟩ := infix_joinSep ", " m (x :: xs) hmem
    refine strIncludes_of_infix ⟨"Template missing required markers: ".data ++ a, b, ?_⟩
    simp only [String.data_append, List.append_assoc]
    rw [← List.append_assoc a, hab]

theorem fallback_contains_markers :
    ∀ m ∈ requiredMarkers, strIncludes getFallbackTemplate m = true := by
  intro m hm
  apply strIncludes_of_infix
  simp only [getFallbackTemplate, String.data_append]
  simp only [requiredMarkers, List.mem_cons, List.not_mem_nil, or_false] at hm
  rcases hm with rfl | rfl | rfl | rfl
  · exact ⟨(fbPart0 ++ TEMPLATE_MARKERS.DYNAMIC_CSP ++ fbPart1 ++
        TEMPLATE_MARKERS.LIBRARY_SCRIPTS ++ fbPart2).data,
      (fbPart3 ++ TEMPLATE_MARKERS.USER_CODE ++ fbPart4).data, by simp⟩
  · exact ⟨(fbPart0 ++ TEMPLATE_MARKERS.DYNAMIC_CSP ++ fbPart1 ++
        TEMPLATE_MARKERS.LIBRARY_SCRIPTS ++ fbPart2 ++ TEMPLATE_MARKERS.SECRET ++
        fbPart3).data, fbPart4.data, by simp⟩
  · exact ⟨fbPart0.data,
      (fbPart1 ++ TEMPLATE_MARKERS.LIBRARY_SCRIPTS ++ fbPart2 ++
        TEMPLATE_MARKERS.SECRET ++ fbPart3 ++ TEMPLATE_MARKERS.USER_CODE ++
        fbPart4).data, by simp⟩
  · exact ⟨(fbPart0 ++ TEMPLATE_MARKERS.DYNAMIC_CSP ++ fbPart1).data,
      (fbPart2 ++ TEMPLATE_MARKERS.SECRET ++ fbPart3 ++
        TEMPLATE_MARKERS.USER_CODE ++ fbPart4).data, by simp⟩

/-- C8: `validateTemplate` fails exactly when one of the four required
markers is absent from the template text, and its error message names every
missing marker; and on any initialization failure — network error/timeout,
bad HTTP status, or a fetched template with missing markers — `initialize`
substitutes the embedded default template (which itself contains all four
markers) instead of propagating the failure. -/
theorem template_validation_and_fallback :
    (∀ t : String, validateTemplate t = Except.ok () ↔
        ∀ m ∈ requiredMarkers, strIncludes t m = true) ∧
    (∀ t e m, validateTemplate t = Except.error e → m ∈ requiredMarkers →
        strIncludes t m = false → strIncludes e m = true) ∧
    (∀ (te : TEState) (f : FetchOutcome), te.isLoaded = false →
        (f = FetchOutcome.fetchError ∨ (∃ s, f = FetchOutcome.badStatus s) ∨
         (∃ text e, f = FetchOutcome.ok text ∧ validateTemplate text = Except.error e)) →
        initializeTE te f = (⟨te.templatePath, some getFallbackTemplate, true⟩, true)) ∧
    (∀ m ∈ requiredMarkers, strIncludes getFallbackTemplate m = true) := by
  refine ⟨validateTemplate_ok_iff, validateTemplate_error_names, ?_, fallback_contains_markers⟩
  rintro ⟨path, tmpl, il⟩ f hL hf
  simp only at hL
  subst hL
  rcases hf with rfl | ⟨s, rfl⟩ | ⟨text, e, rfl, hv⟩
  · simp [initializeTE]
  · simp [initializeTE]
  · simp [initializeTE, hv]

/-- Witness for C8: initializing an unloaded engine against a failed fetch
installs exactly the embedded fallback template. -/
theorem template_validation_and_fallback_witness :
    initializeTE ⟨DEFAULT_TEMPLATE_PATH, none, false⟩ FetchOutcome.fetchError =
      (⟨DEFAULT_TEMPLATE_PATH, some getFallbackTemplate, true⟩, true) :=
  template_validation_and_fallback.2.2.1 ⟨DEFAULT_TEMPLATE_PATH, none, false⟩
    FetchOutcome.fetchError rfl (Or.inl rfl)

/-! ### buildSrcDoc substitution theorems -/

/-- A loaded engine whose template wraps the user-code marker. -/
def ceTemplateState : TEState :=
  ⟨DEFAULT_TEMPLATE_PATH, some ("A" ++ TEMPLATE_MARKERS.USER_CODE ++ "B"), true⟩

/-- Counterexample to C2 as stated: a literal `DYNAMIC_CSP` marker token
occurring inside the user code IS replaced (by the later CSP substitution
step), so it does not appear verbatim in the rendered output — the output
carries the substituted policy value and no marker. -/
theorem marker_in_user_code_resubstituted :
    buildSrcDoc ceTemplateState TEMPLATE_MARKERS.DYNAMIC_CSP "s" "" (some "CSPVALUE") =
      Except.ok "A//# sourceURL=user-code.js\nCSPVALUEB" ∧
    strIncludes "A//# sourceURL=user-code.js\nCSPVALUEB" TEMPLATE_MARKERS.DYNAMIC_CSP
      = false := by
  exact ⟨rfl, by decide⟩

/-- A loaded engine whose template is `<` ++ user-code marker ++ `>`. -/
def seqTemplateState : TEState :=
  ⟨DEFAULT_TEMPLATE_PATH, some ("<" ++ TEMPLATE_MARKERS.USER_CODE ++ ">"), true⟩

/-- User code containing a literal secret marker and a literal CSP marker. -/
def seqUserCode : String :=
  TEMPLATE_MARKERS.SECRET ++ "+" ++ TEMPLATE_MARKERS.DYNAMIC_CSP

/-- C2 (amended): each of the four marker substitutions of `buildSrcDoc`
replaces every occurrence of its marker following JavaScript string
replacement semantics.  First conjunct: for a replacement value free of
dollar characters, the subject factors into marker-free fragments and the
result is the same fragments joined by the replacement inserted verbatim and
never re-scanned.  Second conjunct: a dollar sequence in a substituted value
is interpreted by GetSubstitution — user code `$&` re-inserts the matched
user-code marker itself into the rendered document.  Third conjunct: the
steps run in the fixed order secret → user code → library scripts → CSP, so
a marker token of the same or an earlier step inside a substituted value
stays verbatim (the `SECRET` marker inside the user code survives to the
output, and the dollar-free policy value `c` is inserted verbatim whatever
marker-like text it contains) — but a marker token of a LATER step occurring
in an earlier-substituted value is replaced by that later step (the
`DYNAMIC_CSP` marker inside the same user code becomes `c`). -/
theorem buildSrcDoc_sequential_substitution :
    (∀ m ∈ requiredMarkers, ∀ (subj repl : String), '$' ∉ repl.data →
      ∃ frags : List (List Char), frags ≠ [] ∧
        (∀ f ∈ frags, ¬ m.data <:+: f) ∧
        subj.data = intercalateL m.data frags ∧
        (replaceAllStr subj m repl).data = intercalateL repl.data frags) ∧
    (buildSrcDoc ceTemplateState "$&" "s" "" (some "X") =
      Except.ok ("A//# sourceURL=user-code.js\n" ++ TEMPLATE_MARKERS.USER_CODE ++ "B")) ∧
    (∀ c : String, c ≠ "" → '$' ∉ c.data →
      buildSrcDoc seqTemplateState seqUserCode "sec" "lib" (some c) =
        Except.ok ("<//# sourceURL=user-code.js\n" ++ TEMPLATE_MARKERS.SECRET
          ++ "+" ++ c ++ ">") ∧
      strIncludes ("<//# sourceURL=user-code.js\n" ++ TEMPLATE_MARKERS.SECRET
          ++ "+" ++ c ++ ">") TEMPLATE_MARKERS.SECRET = true) := by
  refine ⟨?_, ?_, ?_⟩
  · intro m hm subj repl hdollar
    have hp : m.data ≠ [] := by
      simp only [requiredMarkers, List.mem_cons, List.not_mem_nil, or_false] at hm
      rcases hm with rfl | rfl | rfl | rfl <;> decide
    exact replaceAll_factorization m.data repl.data hp hdollar subj.data
  · rfl
  · intro c hc hc2
    constructor
    · simp only [buildSrcDoc]
      rw [if_neg (by decide)]
      rw [if_neg hc]
      refine congrArg Except.ok ?_
      have h123 : replaceAllStr (replaceAllStr (replaceAllStr
          (seqTemplateState.template.getD "") TEMPLATE_MARKERS.SECRET "sec")
          TEMPLATE_MARKERS.USER_CODE ("//# sourceURL=user-code.js\n" ++ sanitizeCode seqUserCode))
          TEMPLATE_MARKERS.LIBRARY_SCRIPTS "lib" =
          "<//# sourceURL=user-code.js\n" ++ TEMPLATE_MARKERS.SECRET ++ "+"
            ++ TEMPLATE_MARKERS.DYNAMIC_CSP ++ ">" := by decide
      rw [h123]
      apply String.ext
      simp only [replaceAllStr]
      rw [replaceAllList_of_some (by decide)
        (by decide :
          splitFirst TEMPLATE_MARKERS.DYNAMIC_CSP.data
            (("<//# sourceURL=user-code.js\n" ++ TEMPLATE_MARKERS.SECRET ++ "+"
              ++ TEMPLATE_MARKERS.DYNAMIC_CSP ++ ">").data) =
          some (("<//# sourceURL=user-code.js\n" ++ TEMPLATE_MARKERS.SECRET ++ "+").data,
            ">".data))]
      rw [getSubstitution_no_dollar hc2]
      rw [replaceAllFuel_none _ _
        (by decide : splitFirst TEMPLATE_MARKERS.DYNAMIC_CSP.data ">".data = none)]
      simp [List.append_assoc]
    · apply strIncludes_of_infix
      refine ⟨"<//# sourceURL=user-code.js\n".data, ("+" ++ c ++ ">").data, ?_⟩
      simp [List.append_assoc]

/-- Witness for the amended C2 at a concrete (dollar-free) policy value. -/
theorem buildSrcDoc_sequential_substitution_witness :
    buildSrcDoc seqTemplateState seqUserCode "sec" "lib" (some "POLICY") =
      Except.ok ("<//# sourceURL=user-code.js\n" ++ TEMPLATE_MARKERS.SECRET
        ++ "+POLICY>") := by
  have h := (buildSrcDoc_sequential_substitution.2.2 "POLICY" (by decide) (by decide)).1
  simpa using h

/-! ### LibraryManager theorems -/

/-- The allow-list invariant: every built-in default origin is present, and
the allow-list holds no duplicates. -/
def managerInv (st : ManagerState) : Prop :=
  (∀ d ∈ defaultDomains, d ∈ st.allowedDomains) ∧ st.allowedDomains.Nodup

theorem managerInv_mk (storage : StorageData) : managerInv (mkManager storage) := by
  have hdef : defaultDomains.Nodup := by decide
  have hsd : ∀ saved : List String,
      (∀ d ∈ defaultDomains, d ∈ setDedup (defaultDomains ++ saved)) ∧
      (setDedup (defaultDomains ++ saved)).Nodup := fun saved =>
    ⟨fun d hd => mem_setDedup _ d (List.mem_append_left _ hd), setDedup_nodup _⟩
  rcases storage with ⟨libsD, domsD⟩
  cases libsD with
  | corrupt => cases domsD <;> exact ⟨fun d hd => hd, hdef⟩
  | absent =>
    cases domsD with
    | corrupt => exact ⟨fun d hd => hd, hdef⟩
    | absent => exact hsd []
    | ok saved => exact hsd saved
  | ok libs =>
    cases domsD with
    | corrupt => exact ⟨fun d hd => hd, hdef⟩
    | absent => exact hsd []
    | ok saved => exact hsd saved

theorem managerInv_addDomain (st : ManagerState) (d : String) (h : managerInv st) :
    managerInv (addDomain st d).1 := by
  unfold addDomain
  by_cases hc : (d = "" || st.allowedDomains.contains d) = true
  · rw [if_pos hc]; exact h
  · rw [if_neg hc]
    simp only [saveDomains]
    have hdmem : d ∉ st.allowedDomains := by
      intro hd
      exact hc (by simp [List.contains, List.elem_iff, hd])
    refine ⟨fun x hx => List.mem_append_left _ (h.1 x hx), ?_⟩
    refine List.Nodup.append h.2 (List.nodup_singleton d) ?_
    intro x hx hxd
    have hxe : x = d := by simpa using hxd
    subst hxe
    exact hdmem hx

theorem managerInv_removeDomain (st : ManagerState) (d : String) (h : managerInv st) :
    managerInv (removeDomain st d).1 := by
  unfold removeDomain
  by_cases h1 : defaultDomains.contains d = true
  · rw [if_pos h1]; exact h
  · rw [if_neg h1]
    by_cases h2 : (!st.allowedDomains.contains d) = true
    · rw [if_pos h2]; exact h
    · rw [if_neg h2]
      simp only [saveDomains]
      have hdnd : d ∉ defaultDomains := fun hd =>
        h1 (by simp [List.contains, List.elem_iff, hd])
      refine ⟨fun x hx => ?_, h.2.erase d⟩
      have hxd : x ≠ d := fun he => hdnd (he ▸ hx)
      exact (List.mem_erase_of_ne hxd).mpr (h.1 x hx)

theorem managerInv_addLibrary (newURL : String → Option URLParts)
    (st : ManagerState) (url : String) (name : Option String) (h : managerInv st) :
    managerInv (addLibrary newURL st url name).1 := by
  rcases hval : validateLibraryUrl newURL st url with e | ⟨dom, allowed⟩
  · simp only [addLibrary, hval]; exact h
  · simp only [addLibrary, hval]
    by_cases hdup : (st.libraries.any (fun lib => lib.url == url)) = true
    · rw [if_pos hdup]; exact h
    · rw [if_neg hdup]
      by_cases hall : (!allowed) = true
      · rw [if_pos hall]
        exact managerInv_addDomain _ dom h
      · rw [if_neg hall]
        simp only [saveLibraries]
        exact h

theorem managerInv_removeLibrary (st : ManagerState) (id : String) (h : managerInv st) :
    managerInv (removeLibrary st id).1 := by
  rcases hf : st.libraries.find? (fun lib => lib.id == id) with _ | lib
  · simp only [removeLibrary, hf]; exact h
  · simp only [removeLibrary, hf, saveLibraries]; exact h

theorem managerInv_clear (st : ManagerState) : managerInv (clear st) := by
  have hdef : defaultDomains.Nodup := by decide
  exact ⟨fun d hd => hd, hdef⟩

theorem reachable_managerInv (newURL : String → Option URLParts)
    (st : ManagerState) (h : ReachableNoDestroy newURL st) : managerInv st := by
  induction h with
  | mk storage => exact managerInv_mk storage
  | addLib url name _ ih => exact managerInv_addLibrary _ _ url name ih
  | remLib id _ ih => exact managerInv_removeLibrary _ id ih
  | addDom domain _ ih => exact managerInv_addDomain _ domain ih
  | remDom domain _ ih => exact managerInv_removeDomain _ domain ih
  | clearOp _ ih => exact managerInv_clear _

theorem nodup_addDomain (st : ManagerState) (d : String)
    (h : st.allowedDomains.Nodup) : (addDomain st d).1.allowedDomains.Nodup := by
  unfold addDomain
  by_cases hc : (d = "" || st.allowedDomains.contains d) = true
  · rw [if_pos hc]; exact h
  · rw [if_neg hc]
    simp only [saveDomains]
    have hdmem : d ∉ st.allowedDomains := by
      intro hdm
      exact hc (by simp [List.contains, List.elem_iff, hdm])
    refine List.Nodup.append h (List.nodup_singleton d) ?_
    intro x hx hxd
    have hxe : x = d := by simpa using hxd
    subst hxe
    exact hdmem hx

theorem nodup_removeDomain (st : ManagerState) (d : String)
    (h : st.allowedDomains.Nodup) : (removeDomain st d).1.allowedDomains.Nodup := by
  unfold removeDomain
  by_cases h1 : defaultDomains.contains d = true
  · rw [if_pos h1]; exact h
  · rw [if_neg h1]
    by_cases h2 : (!st.allowedDomains.contains d) = true
    · rw [if_pos h2]; exact h
    · rw [if_neg h2]
      simp only [saveDomains]
      exact h.erase d

theorem nodup_addLibrary (newURL : String → Option URLParts)
    (st : ManagerState) (url : String) (name : Option String)
    (h : st.allowedDomains.Nodup) :
    (addLibrary newURL st url name).1.allowedDomains.Nodup := by
  rcases hval : validateLibraryUrl newURL st url with e | ⟨dom, allowed⟩
  · simp only [addLibrary, hval]; exact h
  · simp only [addLibrary, hval]
    by_cases hdup : (st.libraries.any (fun lib => lib.url == url)) = true
    · rw [if_pos hdup]; exact h
    · rw [if_neg hdup]
      by_cases hall : (!allowed) = true
      · rw [if_pos hall]
        exact nodup_addDomain _ dom h
      · rw [if_neg hall]
        simp only [saveLibraries]
        exact h

theorem nodup_removeLibrary (st : ManagerState) (id : String)
    (h : st.allowedDomains.Nodup) : (removeLibrary st id).1.allowedDomains.Nodup := by
  rcases hf : st.libraries.find? (fun lib => lib.id == id) with _ | lib
  · simp only [removeLibrary, hf]; exact h
  · simp only [removeLibrary, hf, saveLibraries]; exact h

/-- The duplicate-freedom half of the invariant survives `destroy` as well,
so it holds over the full reachability relation. -/
theorem reachable_nodup (newURL : String → Option URLParts)
    (st : ManagerState) (h : Reachable newURL st) : st.allowedDomains.Nodup := by
  induction h with
  | mk storage => exact (managerInv_mk storage).2
  | addLib url name _ ih => exact nodup_addLibrary _ _ url name ih
  | remLib id _ ih => exact nodup_removeLibrary _ id ih
  | addDom domain _ ih => exact nodup_addDomain _ domain ih
  | remDom domain _ ih => exact nodup_removeDomain _ domain ih
  | clearOp _ ih =>
    have hdef : defaultDomains.Nodup := by decide
    exact hdef
  | destroyOp _ ih => exact List.nodup_nil

/-- Counterexample to C7 as stated: `destroy()` is a public Library Manager
operation (src/libraries/manager.js:541-545) that sets the allowed-domain
list to `[]`, so after it the built-in default origin `unpkg.com` is no
longer a member of the allowed-origin set. -/
theorem destroy_removes_default_origins :
    Reachable (fun _ => none)
      (destroy (mkManager ⟨StorageItem.absent, StorageItem.absent⟩)) ∧
    "unpkg.com" ∈ defaultDomains ∧
    "unpkg.com" ∉
      (destroy (mkManager ⟨StorageItem.absent, StorageItem.absent⟩)).allowedDomains :=
  ⟨Reachable.destroyOp (Reachable.mk ⟨StorageItem.absent, StorageItem.absent⟩),
   by decide, by decide⟩

/-- C7 (amended): every built-in default origin is in the allowed set after
construction (over any, possibly corrupt, persisted data) and after every
sequence of public operations other than `destroy()`; `removeDomain` on a
default origin returns false and leaves the manager state entirely
unchanged, and `clear` keeps every default origin.  `destroy()` is the one
exception: it empties the allowed-origin set wholesale, default origins
included. -/
theorem default_origins_never_removed (newURL : String → Option URLParts)
    (st : ManagerState) (h : ReachableNoDestroy newURL st) :
    (∀ d ∈ defaultDomains,
      d ∈ st.allowedDomains ∧
      removeDomain st d = (st, false) ∧
      d ∈ (clear st).allowedDomains ∧
      (∀ storage, d ∈ (mkManager storage).allowedDomains)) ∧
    (destroy st).allowedDomains = [] := by
  refine ⟨?_, rfl⟩
  intro d hd
  have hinv := reachable_managerInv newURL st h
  have hcont : defaultDomains.contains d = true := by
    simp [List.contains, List.elem_iff, hd]
  refine ⟨hinv.1 d hd, ?_, hd, fun storage => (managerInv_mk storage).1 d hd⟩
  unfold removeDomain
  rw [if_pos hcont]

/-- Witness for the amended C7: the default origin `unpkg.com` at a freshly
constructed manager (empty storage) is present and cannot be removed. -/
theorem default_origins_never_removed_witness :
    "unpkg.com" ∈ (mkManager ⟨StorageItem.absent, StorageItem.absent⟩).allowedDomains ∧
    removeDomain (mkManager ⟨StorageItem.absent, StorageItem.absent⟩) "unpkg.com" =
      (mkManager ⟨StorageItem.absent, StorageItem.absent⟩, false) := by
  have h := (default_origins_never_removed (fun _ => none) _
    (ReachableNoDestroy.mk ⟨StorageItem.absent, StorageItem.absent⟩)).1
    "unpkg.com" (by decide)
  exact ⟨h.1, h.2.1⟩

theorem https_ne_token (d t : String) (h : t.data.head? ≠ some 'h') :
    "https://" ++ d ≠ t := by
  intro he
  apply h
  rw [← he]
  rfl

theorem https_injective : Function.Injective (fun d : String => "https://" ++ d) := by
  intro a b hab
  have hdata := congrArg String.data hab
  simp only [String.data_append] at hdata
  exact String.ext (List.append_cancel_left hdata)

/-- C5: for every reachable state of the trusted-origin set — whatever the
order of origin additions and removals — the script-source list of the
generated policy contains `'self'` exactly once and each currently allowed
origin (as `https://origin`) exactly once, and the policy string ends by
explicitly denying outbound network access (`connect-src 'none';`). -/
theorem generateCSP_self_and_origins_once (newURL : String → Option URLParts)
    (st : ManagerState) (h : Reachable newURL st) :
    (scriptSrcList st).count "\x27self\x27" = 1 ∧
    (∀ d ∈ st.allowedDomains, (scriptSrcList st).count ("https://" ++ d) = 1) ∧
    (∃ a, generateCSP st = a ++ "; connect-src \x27none\x27;") := by
  have hnd := reachable_nodup newURL st h
  refine ⟨?_, ?_, ?_⟩
  · have hmap : (st.allowedDomains.map (fun d => "https://" ++ d)).count "\x27self\x27" = 0 := by
      rw [List.count_eq_zero]
      intro hmem
      obtain ⟨d, _, hfd⟩ := List.mem_map.mp hmem
      exact https_ne_token d _ (by decide) hfd
    simp [scriptSrcList, List.count_cons, hmap]
  · intro d hd
    have hmap : (st.allowedDomains.map (fun x => "https://" ++ x)).count ("https://" ++ d) = 1 :=
      List.count_eq_one_of_mem (hnd.map https_injective)
        (List.mem_map.mpr ⟨d, hd, rfl⟩)
    have h1 : ("https://" ++ d) ≠ "\x27self\x27" := https_ne_token d _ (by decide)
    have h2 : ("https://" ++ d) ≠ "\x27unsafe-inline\x27" := https_ne_token d _ (by decide)
    have h3 : ("https://" ++ d) ≠ "\x27unsafe-eval\x27" := https_ne_token d _ (by decide)
    simp [scriptSrcList, List.count_cons, hmap, h1, h2, h3]
  · exact ⟨"default-src \x27self\x27 \x27unsafe-inline\x27 \x27unsafe-eval\x27 data: blob:; script-src "
      ++ joinSep " " (scriptSrcList st), rfl⟩

/-- Witness for C5 at a freshly constructed manager with empty storage:
`'self'` once, the default origin `unpkg.com` once. -/
theorem generateCSP_self_and_origins_once_witness :
    (scriptSrcList (mkManager ⟨StorageItem.absent, StorageItem.absent⟩)).count "\x27self\x27" = 1 ∧
    (scriptSrcList (mkManager ⟨StorageItem.absent, StorageItem.absent⟩)).count
      ("https://" ++ "unpkg.com") = 1 := by
  have h := generateCSP_self_and_origins_once (fun _ => none) _
    (Reachable.mk ⟨StorageItem.absent, StorageItem.absent⟩)
  exact ⟨h.1, h.2.1 "unpkg.com" (by decide)⟩

/-- C6: adding a valid script URL whose origin is not currently trusted
returns the needs-approval result naming that origin, emits exactly one
trust-request event (the manager's own listener then adds the origin, which
appends the one `DOMAIN_ADDED` event), and does not add the reference to the
library list; after the origin is approved (`addDomain`, idempotent here),
retrying the same URL succeeds and the reference appears in `getLibraries`. -/
theorem addLibrary_untrusted_needs_approval (newURL : String → Option URLParts)
    (st : ManagerState) (url nm d : String)
    (hurl : url ≠ "") (hd : d ≠ "")
    (hdom : extractDomain newURL url = some d)
    (hjs : jsUrlMatch url = true)
    (huntrusted : st.allowedDomains.contains d = false)
    (hnodup : st.libraries.any (fun lib => lib.url == url) = false)
    (hnm : nm ≠ "") :
    (addLibrary newURL st url (some nm)).2 = AddLibraryResult.needsApproval d ∧
    (addLibrary newURL st url (some nm)).1.libraries = st.libraries ∧
    (addLibrary newURL st url (some nm)).1.events =
      st.events ++ [MEvent.domainTrustRequest d url nm, MEvent.domainAdded d] ∧
    (∃ lib,
      (addLibrary newURL (addDomain (addLibrary newURL st url (some nm)).1 d).1
          url (some nm)).2 = AddLibraryResult.added lib ∧
      lib.url = (⟨jsTrim url.data⟩ : String) ∧
      lib ∈ getLibraries
        (addLibrary newURL (addDomain (addLibrary newURL st url (some nm)).1 d).1
          url (some nm)).1) := by
  obtain ⟨libs, doms, sto, evs, idc⟩ := st
  simp only at hnodup huntrusted
  have hval : validateLibraryUrl newURL ⟨libs, doms, sto, evs, idc⟩ url =
      LibValidation.valid d false := by
    unfold validateLibraryUrl
    rw [if_neg hurl]
    simp only [hdom, hjs, Bool.not_true, Bool.false_eq_true, if_false]
    rw [if_neg hd]
    unfold isDomainAllowed
    simp only
    rw [huntrusted]
  have hval2 : ∀ sto2 evs2,
      validateLibraryUrl newURL ⟨libs, doms ++ [d], sto2, evs2, idc⟩ url =
      LibValidation.valid d true := by
    intro sto2 evs2
    unfold validateLibraryUrl
    rw [if_neg hurl]
    simp only [hdom, hjs, Bool.not_true, Bool.false_eq_true, if_false]
    rw [if_neg hd]
    unfold isDomainAllowed
    simp [List.contains, List.elem_iff]
  have hdnotin : d ∉ doms := fun hm => by
    have hc : doms.contains d = true := List.elem_iff.mpr hm
    rw [hc] at huntrusted
    cases huntrusted
  have h1 : addLibrary newURL ⟨libs, doms, sto, evs, idc⟩ url (some nm) =
      (ManagerState.mk libs (doms ++ [d])
        (StorageData.mk sto.librariesData
          (StorageItem.ok ((doms ++ [d]).filter (fun x => !defaultDomains.contains x))))
        (evs ++ [MEvent.domainTrustRequest d url nm, MEvent.domainAdded d]) idc,
       AddLibraryResult.needsApproval d) := by
    simp only [addLibrary, hval]
    rw [if_neg (by simp [hnodup])]
    rw [if_neg hnm]
    simp only [Bool.not_false, if_true, addDomain]
    rw [if_neg (by simp [hdnotin, hd])]
    simp [saveDomains]
  rw [h1]
  refine ⟨rfl, rfl, rfl, ?_⟩
  have hcont2 : (doms ++ [d]).contains d = true := by
    simp [List.contains, List.elem_iff]
  have h2 : addDomain (ManagerState.mk libs (doms ++ [d])
        (StorageData.mk sto.librariesData
          (StorageItem.ok ((doms ++ [d]).filter (fun x => !defaultDomains.contains x))))
        (evs ++ [MEvent.domainTrustRequest d url nm, MEvent.domainAdded d]) idc) d =
      (ManagerState.mk libs (doms ++ [d])
        (StorageData.mk sto.librariesData
          (StorageItem.ok ((doms ++ [d]).filter (fun x => !defaultDomains.contains x))))
        (evs ++ [MEvent.domainTrustRequest d url nm, MEvent.domainAdded d]) idc, false) := by
    unfold addDomain
    rw [if_pos (by simp [hcont2])]
  rw [h2]
  have h3 : addLibrary newURL (ManagerState.mk libs (doms ++ [d])
        (StorageData.mk sto.librariesData
          (StorageItem.ok ((doms ++ [d]).filter (fun x => !defaultDomains.contains x))))
        (evs ++ [MEvent.domainTrustRequest d url nm, MEvent.domainAdded d]) idc)
        url (some nm) =
      (ManagerState.mk
        (libs ++ [Library.mk ("lib_" ++ toString idc) nm ⟨jsTrim url.data⟩ d idc])
        (doms ++ [d])
        (StorageData.mk
          (StorageItem.ok (libs ++ [Library.mk ("lib_" ++ toString idc) nm ⟨jsTrim url.data⟩ d idc]))
          (StorageItem.ok ((doms ++ [d]).filter (fun x => !defaultDomains.contains x))))
        (evs ++ [MEvent.domainTrustRequest d url nm, MEvent.domainAdded d,
          MEvent.libraryAdded (Library.mk ("lib_" ++ toString idc) nm ⟨jsTrim url.data⟩ d idc)])
        (idc + 1),
       AddLibraryResult.added (Library.mk ("lib_" ++ toString idc) nm ⟨jsTrim url.data⟩ d idc)) := by
    simp only [addLibrary, hval2]
    rw [if_neg (by simp [hnodup])]
    rw [if_neg hnm]
    simp [generateId, saveLibraries]
  rw [h3]
  refine ⟨Library.mk ("lib_" ++ toString idc) nm ⟨jsTrim url.data⟩ d idc, rfl, rfl, ?_⟩
  simp [getLibraries]

/-- Witness for C6: adding `https://newcdn.example/lib.js` to a fresh manager
(whose allow-list holds only the defaults) yields the needs-approval result
naming `newcdn.example`. -/
theorem addLibrary_untrusted_needs_approval_witness :
    (addLibrary
      (fun u => if u = "https://newcdn.example/lib.js"
        then some ⟨"newcdn.example", "/lib.js"⟩ else none)
      (mkManager ⟨StorageItem.absent, StorageItem.absent⟩)
      "https://newcdn.example/lib.js" (some "NewLib")).2 =
      AddLibraryResult.needsApproval "newcdn.example" := by
  have h := addLibrary_untrusted_needs_approval
    (fun u => if u = "https://newcdn.example/lib.js"
      then some ⟨"newcdn.example", "/lib.js"⟩ else none)
    (mkManager ⟨StorageItem.absent, StorageItem.absent⟩)
    "https://newcdn.example/lib.js" "NewLib" "newcdn.example"
    (by decide) (by decide) (by decide) (by decide) (by decide) (by decide) (by decide)
  exact h.1
